import Mathlib

/-!
Verification development for the allegro-mcp-server repository.

The TypeScript sources are shallowly embedded as executable Lean
definitions.  JavaScript `Map` objects become association lists that keep
insertion order (`Map.set` replaces in place, otherwise appends;
`Map.delete` filters).  `Date.now()` becomes an explicit `now : Int`
argument threaded through each operation.  Random token generation
(`generateOpaqueToken`, `crypto.randomUUID`) and network I/O (the upstream
token endpoint, the CIMD fetch) are external effects and enter the
embedding as explicit oracle arguments.  JavaScript truthiness on optional
strings / numbers is modelled explicitly (`strTruthy`, `numTruthy`).
-/

namespace AllegroMcp

/-- JS `Map.get`: first binding for the key, if any. -/
def mapGet {κ α : Type} [BEq κ] (m : List (κ × α)) (k : κ) : Option α :=
  (m.find? (fun e => e.1 == k)).map (fun e => e.2)

/-- JS `Map.set`: replace the binding in place when the key is present,
otherwise append a new binding (insertion order preserved). -/
def mapSet {κ α : Type} [BEq κ] (m : List (κ × α)) (k : κ) (v : α) : List (κ × α) :=
  if m.any (fun e => e.1 == k) then
    m.map (fun e => if e.1 == k then (k, v) else e)
  else
    m ++ [(k, v)]

/-- JS `Map.delete`: remove the binding for the key. -/
def mapDelete {κ α : Type} [BEq κ] (m : List (κ × α)) (k : κ) : List (κ × α) :=
  m.filter (fun e => !(e.1 == k))

/-- JS truthiness of an optional string (`undefined` and `""` are falsy). -/
def strTruthy : Option String → Bool
  | some s => !(s == "")
  | none => false

/-- JS truthiness of an optional number (`undefined` and `0` are falsy). -/
def numTruthy : Option Int → Bool
  | some n => !(n == 0)
  | none => false

/-- `(s || '').split(/\s+/).filter(Boolean)`: whitespace-separated words. -/
def splitScopes (s : String) : List String :=
  (s.split (fun c => c.isWhitespace)).filter (fun w => !(w == ""))

/-- JS `String.prototype.startsWith` (kernel-reducible form). -/
def strStartsWith (s p : String) : Bool := p.toList.isPrefixOf s.toList

/-- JS `String.prototype.endsWith` (kernel-reducible form). -/
def strEndsWith (s p : String) : Bool := p.toList.isSuffixOf s.toList

/-- JS `String.prototype.toLowerCase` (kernel-reducible form). -/
def strToLower (s : String) : String := ⟨s.toList.map Char.toLower⟩

/-! ## Storage data model (storage/interface.ts) -/

/-- `ProviderTokens` (upstream credential). -/
structure ProviderTokens where
  access_token : String
  refresh_token : Option String
  expires_at : Option Int
  scopes : List String
deriving DecidableEq, Repr

/-- In-memory token store entry: `RsRecord & { expiresAt }`. -/
structure RsRecordE where
  rs_access_token : String
  rs_refresh_token : String
  provider : ProviderTokens
  created_at : Int
  expiresAt : Int
deriving DecidableEq, Repr

/-- `Transaction` (in-flight OAuth authorization). -/
structure Transaction where
  codeChallenge : String
  state : Option String
  scope : Option String
  createdAt : Int
  sid : Option String
  provider : Option ProviderTokens
deriving DecidableEq, Repr

/-- `TimedEntry<T>` used by the in-memory transaction/code maps. -/
structure TimedEntry (α : Type) where
  value : α
  expiresAt : Int
  createdAt : Int
deriving DecidableEq, Repr

def DEFAULT_TXN_TTL_MS : Int := 10 * 60 * 1000
def DEFAULT_CODE_TTL_MS : Int := 10 * 60 * 1000
def DEFAULT_SESSION_TTL_MS : Int := 24 * 60 * 60 * 1000
def DEFAULT_RS_TOKEN_TTL_MS : Int := 7 * 24 * 60 * 60 * 1000
def MAX_RS_RECORDS : Nat := 10000
def MAX_TRANSACTIONS : Nat := 1000
def MAX_SESSIONS : Nat := 10000
def MAX_SESSIONS_PER_API_KEY : Nat := 5

/-- `evictOldest(map, maxSize, countToRemove)`: when the map has reached
`maxSize`, sort its entries by creation time (stable) and delete the first
`countToRemove` keys.  `timeOf` plays the role of `created_at ?? createdAt ?? 0`. -/
def evictOldest {α : Type} (timeOf : α → Int) (m : List (String × α))
    (maxSize countToRemove : Nat) : List (String × α) :=
  if m.length < maxSize then m
  else
    ((m.mergeSort (fun a b => timeOf a.2 ≤ timeOf b.2)).take countToRemove).foldl
      (fun acc e => mapDelete acc e.1) m

/-- State of `MemoryTokenStore` (storage/memory.ts). -/
structure TokenStoreState where
  rsAccessMap : List (String × RsRecordE)
  rsRefreshMap : List (String × RsRecordE)
  transactions : List (String × TimedEntry Transaction)
  codes : List (String × TimedEntry String)
deriving DecidableEq, Repr

def emptyTokenStore : TokenStoreState := ⟨[], [], [], []⟩

/-- `MemoryTokenStore.storeRsMapping`.  `freshUuid` stands for the
`crypto.randomUUID()` draw used when no `rsRefresh` is supplied.  The JS
code mutates the `existing` record in place; since both maps alias the same
object, the embedding updates both indices explicitly. -/
def storeRsMapping (s : TokenStoreState) (now : Int) (rsAccess : String)
    (provider : ProviderTokens) (rsRefresh : Option String) (freshUuid : String)
    (ttlMs : Int) : TokenStoreState × RsRecordE :=
  let expiresAt := now + ttlMs
  let accessMap := evictOldest (fun r => r.created_at) s.rsAccessMap MAX_RS_RECORDS 10
  let existing := if strTruthy rsRefresh then mapGet s.rsRefreshMap (rsRefresh.getD "") else none
  match existing with
  | some ex =>
    let accessMap := mapDelete accessMap ex.rs_access_token
    let updated : RsRecordE :=
      { ex with rs_access_token := rsAccess, provider := provider, expiresAt := expiresAt }
    ({ s with
        rsAccessMap := mapSet accessMap rsAccess updated,
        rsRefreshMap := mapSet s.rsRefreshMap (rsRefresh.getD "") updated }, updated)
  | none =>
    let record : RsRecordE :=
      { rs_access_token := rsAccess,
        rs_refresh_token := rsRefresh.getD freshUuid,
        provider := provider,
        created_at := now,
        expiresAt := expiresAt }
    ({ s with
        rsAccessMap := mapSet accessMap record.rs_access_token record,
        rsRefreshMap := mapSet s.rsRefreshMap record.rs_refresh_token record }, record)

/-- `MemoryTokenStore.getByRsAccess` (lazy expiry: delete on read). -/
def getByRsAccess (s : TokenStoreState) (now : Int) (rsAccess : String) :
    TokenStoreState × Option RsRecordE :=
  match mapGet s.rsAccessMap rsAccess with
  | none => (s, none)
  | some entry =>
    if now ≥ entry.expiresAt then
      ({ s with
          rsAccessMap := mapDelete s.rsAccessMap rsAccess,
          rsRefreshMap := mapDelete s.rsRefreshMap entry.rs_refresh_token }, none)
    else (s, some entry)

/-- `MemoryTokenStore.getByRsRefresh` (lazy expiry: delete on read). -/
def getByRsRefresh (s : TokenStoreState) (now : Int) (rsRefresh : String) :
    TokenStoreState × Option RsRecordE :=
  match mapGet s.rsRefreshMap rsRefresh with
  | none => (s, none)
  | some entry =>
    if now ≥ entry.expiresAt then
      ({ s with
          rsAccessMap := mapDelete s.rsAccessMap entry.rs_access_token,
          rsRefreshMap := mapDelete s.rsRefreshMap rsRefresh }, none)
    else (s, some entry)

/-- `MemoryTokenStore.updateByRsRefresh`.  When `maybeNewRsAccess` is truthy
the old access index entry is deleted before the new one is published. -/
def updateByRsRefresh (s : TokenStoreState) (now : Int) (rsRefresh : String)
    (provider : ProviderTokens) (maybeNewRsAccess : Option String) (ttlMs : Int) :
    TokenStoreState × Option RsRecordE :=
  match mapGet s.rsRefreshMap rsRefresh with
  | none => (s, none)
  | some rec =>
    let step : List (String × RsRecordE) × RsRecordE :=
      if strTruthy maybeNewRsAccess then
        (mapDelete s.rsAccessMap rec.rs_access_token,
         { rec with rs_access_token := maybeNewRsAccess.getD "", created_at := now })
      else (s.rsAccessMap, rec)
    let rec2 : RsRecordE := { step.2 with provider := provider, expiresAt := now + ttlMs }
    ({ s with
        rsAccessMap := mapSet step.1 rec2.rs_access_token rec2,
        rsRefreshMap := mapSet s.rsRefreshMap rsRefresh rec2 }, some rec2)

/-- `MemoryTokenStore.saveTransaction` (`ttlSeconds` falsy means default). -/
def saveTransaction (s : TokenStoreState) (now : Int) (txnId : String)
    (txn : Transaction) (ttlSeconds : Option Int) : TokenStoreState :=
  let ttlMs := if numTruthy ttlSeconds then ttlSeconds.getD 0 * 1000 else DEFAULT_TXN_TTL_MS
  let txs := evictOldest (fun e => e.createdAt) s.transactions MAX_TRANSACTIONS 10
  { s with transactions := mapSet txs txnId ⟨txn, now + ttlMs, now⟩ }

/-- `MemoryTokenStore.getTransaction` (lazy expiry). -/
def getTransaction (s : TokenStoreState) (now : Int) (txnId : String) :
    TokenStoreState × Option Transaction :=
  match mapGet s.transactions txnId with
  | none => (s, none)
  | some entry =>
    if now ≥ entry.expiresAt then
      ({ s with transactions := mapDelete s.transactions txnId }, none)
    else (s, some entry.value)

/-- `MemoryTokenStore.deleteTransaction`. -/
def deleteTransaction (s : TokenStoreState) (txnId : String) : TokenStoreState :=
  { s with transactions := mapDelete s.transactions txnId }

/-- `MemoryTokenStore.saveCode`. -/
def saveCode (s : TokenStoreState) (now : Int) (code txnId : String)
    (ttlSeconds : Option Int) : TokenStoreState :=
  let ttlMs := if numTruthy ttlSeconds then ttlSeconds.getD 0 * 1000 else DEFAULT_CODE_TTL_MS
  { s with codes := mapSet s.codes code ⟨txnId, now + ttlMs, now⟩ }

/-- `MemoryTokenStore.getTxnIdByCode` (lazy expiry). -/
def getTxnIdByCode (s : TokenStoreState) (now : Int) (code : String) :
    TokenStoreState × Option String :=
  match mapGet s.codes code with
  | none => (s, none)
  | some entry =>
    if now ≥ entry.expiresAt then
      ({ s with codes := mapDelete s.codes code }, none)
    else (s, some entry.value)

/-- `MemoryTokenStore.deleteCode`. -/
def deleteCode (s : TokenStoreState) (code : String) : TokenStoreState :=
  { s with codes := mapDelete s.codes code }

/-! ## Refresher (oauth/refresh.ts) -/

/-- Provider refresh configuration. -/
structure ProviderRefreshConfig where
  clientId : String
  clientSecret : String
  accountsUrl : String
  tokenEndpointPath : Option String
deriving DecidableEq, Repr

/-- The upstream token endpoint response body, as parsed by oauth4webapi. -/
structure UpstreamTokenResponse where
  access_token : Option String
  refresh_token : Option String
  expires_in : Option Int
  scope : Option String
deriving DecidableEq, Repr

/-- Outcome of the upstream refresh HTTP call (network oracle). -/
inductive UpstreamOutcome : Type
  | response (r : UpstreamTokenResponse)
  | bodyError (code description : String)
  | networkError (msg : String)
deriving DecidableEq, Repr

/-- `RefreshResult` of `refreshProviderToken`. -/
inductive RefreshResult : Type
  | success (tokens : ProviderTokens)
  | failure (error : String)
deriving DecidableEq, Repr

/-- `refreshProviderToken`: maps the upstream response to `ProviderTokens`
(`refresh_token = new ?? old`, `expires_at = now + (expires_in ?? 3600)*1000`). -/
def refreshProviderToken (now : Int) (refreshToken : String)
    (outcome : UpstreamOutcome) : RefreshResult :=
  match outcome with
  | .response r =>
    if !(strTruthy r.access_token) then
      .failure "No access_token in provider response"
    else
      .success
        { access_token := r.access_token.getD "",
          refresh_token := some (r.refresh_token.getD refreshToken),
          expires_at := some (now + (r.expires_in.getD 3600) * 1000),
          scopes := splitScopes (r.scope.getD "") }
  | .bodyError c d =>
    .failure (("Provider returned " ++ c ++ ": " ++ d).trim)
  | .networkError m => .failure ("Network error: " ++ m)

def EXPIRY_BUFFER_MS : Int := 60000
def REFRESH_COOLDOWN_MS : Int := 30000

/-- `isTokenExpiredOrExpiring` (a falsy `expires_at` means never expiring). -/
def isTokenExpiredOrExpiring (now : Int) (expiresAt : Option Int) (bufferMs : Int) : Bool :=
  if !(numTruthy expiresAt) then false
  else now ≥ expiresAt.getD 0 - bufferMs

/-- `shouldSkipRefresh` over the per-process `recentlyRefreshed` map. -/
def shouldSkipRefresh (recentlyRefreshed : List (String × Int)) (now : Int)
    (rsToken : String) : Bool :=
  match mapGet recentlyRefreshed rsToken with
  | some lastRefresh => numTruthy (some lastRefresh) && now - lastRefresh < REFRESH_COOLDOWN_MS
  | none => false

/-- `markRefreshed`: record the refresh time; sweep stale entries past 1000. -/
def markRefreshed (recentlyRefreshed : List (String × Int)) (now : Int)
    (rsToken : String) : List (String × Int) :=
  let m := mapSet recentlyRefreshed rsToken now
  if m.length > 1000 then
    m.filter (fun e => !(now - e.2 > REFRESH_COOLDOWN_MS))
  else m

/-- Result shape of `ensureFreshToken`. -/
structure EnsureResult where
  accessToken : String
  wasRefreshed : Bool
deriving DecidableEq, Repr

/-- State shared by the Refresher: the token store plus `recentlyRefreshed`. -/
structure RefresherState where
  store : TokenStoreState
  recentlyRefreshed : List (String × Int)
deriving DecidableEq, Repr

/-- `ensureFreshToken` (oauth/refresh.ts): look up the RS record, return the
provider access token as is when not near expiry, otherwise refresh
upstream and update the store.  `upstream` is the network oracle. -/
def ensureFreshToken (st : RefresherState) (now : Int) (rsAccessToken : String)
    (providerConfig : Option ProviderRefreshConfig) (upstream : UpstreamOutcome) :
    RefresherState × EnsureResult :=
  let r1 := getByRsAccess st.store now rsAccessToken
  let st := { st with store := r1.1 }
  match r1.2 with
  | none => (st, ⟨"", false⟩)
  | some record =>
    if !(strTruthy (some record.provider.access_token)) then (st, ⟨"", false⟩)
    else if !(isTokenExpiredOrExpiring now record.provider.expires_at EXPIRY_BUFFER_MS) then
      (st, ⟨record.provider.access_token, false⟩)
    else if shouldSkipRefresh st.recentlyRefreshed now rsAccessToken then
      (st, ⟨record.provider.access_token, false⟩)
    else if !(strTruthy record.provider.refresh_token) then
      (st, ⟨record.provider.access_token, false⟩)
    else
      match providerConfig with
      | none => (st, ⟨record.provider.access_token, false⟩)
      | some _ =>
        match refreshProviderToken now (record.provider.refresh_token.getD "") upstream with
        | .failure _ => (st, ⟨record.provider.access_token, false⟩)
        | .success tokens =>
          let providerRefreshRotated := tokens.refresh_token != record.provider.refresh_token
          let newRsAccess := if providerRefreshRotated then none else some record.rs_access_token
          let upd := updateByRsRefresh st.store now record.rs_refresh_token tokens newRsAccess
            DEFAULT_RS_TOKEN_TTL_MS
          ({ store := upd.1,
             recentlyRefreshed := markRefreshed st.recentlyRefreshed now rsAccessToken },
           ⟨tokens.access_token, true⟩)


/-! ## OAuth flow engine (oauth/flow.ts) -/

/-- Parsed view of a WHATWG `URL` (the platform parser is external to the
repository; embeddings take a `parse : String → Option UrlView` oracle,
`none` meaning the `URL` constructor throws). -/
structure UrlView where
  protocol : String
  hostname : String
  host : String
  pathname : String
deriving DecidableEq, Repr

/-- `ProviderConfig` fields read by the flow engine. -/
structure ProviderConfig where
  clientId : Option String
  clientSecret : Option String
  accountsUrl : String
  authorizationEndpointPath : Option String
  tokenEndpointPath : Option String
  oauthScopes : Option String
  extraAuthParams : Option String
deriving DecidableEq, Repr

/-- `OAuthConfig` fields read by the redirect allowlist check. -/
structure OAuthConfig where
  redirectUri : String
  redirectAllowlist : List String
  redirectAllowAll : Bool
deriving DecidableEq, Repr

/-- `isAllowedRedirect` (flow.ts): loopback hosts always pass in dev;
otherwise `redirectAllowAll` or membership of the normalized URL (or the
raw string) in allowlist ∪ {config.redirectUri}. -/
def isAllowedRedirect (parse : String → Option UrlView) (uri : String)
    (config : OAuthConfig) (isDev : Bool) : Bool :=
  match parse uri with
  | none => false
  | some url =>
    let allowed := (config.redirectAllowlist ++ [config.redirectUri]).filter
      (fun s => !(s == ""))
    if isDev && (url.hostname == "localhost" || url.hostname == "127.0.0.1" ||
        url.hostname == "::1") then true
    else if config.redirectAllowAll then true
    else allowed.contains (url.protocol ++ "//" ++ url.host ++ url.pathname) ||
      allowed.contains uri

/-- A redirect produced by the flow engine: the chosen target URL plus the
query parameters set on it (`searchParams.set`, so later sets override). -/
structure RedirectSpec where
  base : String
  params : List (String × String)
deriving DecidableEq, Repr

/-- `/token` request input (`TokenInput`). -/
inductive TokenInput : Type
  | authorizationCode (code codeVerifier : String)
  | refreshTok (refreshToken : String)
deriving DecidableEq, Repr

/-- Successful `/token` response body. -/
structure TokenResponse where
  access_token : String
  refresh_token : String
  token_type : String
  expires_in : Int
  scope : String
deriving DecidableEq, Repr

/-- `handleToken` (flow.ts).  `s256` stands for the external
`oauth.calculatePKCECodeChallenge`; `freshRsAccess`, `freshRsRefresh` and
`freshUuid` for the `generateOpaqueToken(24)` / `randomUUID` draws; and
`upstream` for the network call performed by `refreshProviderToken`.
Tagged errors thrown by the source become `Except.error` values. -/
def handleToken (s : TokenStoreState) (now : Int) (s256 : String → String)
    (freshRsAccess freshRsRefresh freshUuid : String)
    (upstream : UpstreamOutcome) (providerConfig : Option ProviderConfig)
    (input : TokenInput) : TokenStoreState × Except String TokenResponse :=
  match input with
  | .refreshTok refreshToken =>
    let r1 := getByRsRefresh s now refreshToken
    match r1.2 with
    | none => (r1.1, .error "invalid_grant")
    | some rec =>
      let providerExpiresAt := rec.provider.expires_at.getD 0
      let isExpiringSoon := now ≥ providerExpiresAt - 60000
      let providerResult : Except String ProviderTokens :=
        if isExpiringSoon && providerConfig.isSome then
          if !(strTruthy rec.provider.refresh_token) then .error "provider_token_expired"
          else
            match refreshProviderToken now (rec.provider.refresh_token.getD "") upstream with
            | .success tokens => .ok tokens
            | .failure _ => .error "provider_refresh_failed"
        else .ok rec.provider
      match providerResult with
      | .error e => (r1.1, .error e)
      | .ok provider =>
        let providerRefreshRotated := provider.refresh_token != rec.provider.refresh_token
        let newAccess := if providerRefreshRotated then some freshRsAccess else none
        let upd := updateByRsRefresh r1.1 now refreshToken provider newAccess
          DEFAULT_RS_TOKEN_TTL_MS
        let expiresIn :=
          if numTruthy provider.expires_at then
            max 1 ((provider.expires_at.getD 0 - now).fdiv 1000)
          else 3600
        (upd.1, .ok
          { access_token := newAccess.getD rec.rs_access_token,
            refresh_token := refreshToken,
            token_type := "bearer",
            expires_in := expiresIn,
            scope := " ".intercalate ((upd.2.map (fun u => u.provider.scopes)).getD []) })
  | .authorizationCode code codeVerifier =>
    let r1 := getTxnIdByCode s now code
    match r1.2 with
    | none => (r1.1, .error "invalid_grant")
    | some txnId =>
      let r2 := getTransaction r1.1 now txnId
      match r2.2 with
      | none => (r2.1, .error "invalid_grant")
      | some txn =>
        if !(txn.codeChallenge == s256 codeVerifier) then (r2.1, .error "invalid_grant")
        else
          let rsAccess := freshRsAccess
          let rsRefresh := freshRsRefresh
          let s3 :=
            match txn.provider with
            | some p =>
              if strTruthy (some p.access_token) then
                (storeRsMapping r2.1 now rsAccess p (some rsRefresh) freshUuid
                  DEFAULT_RS_TOKEN_TTL_MS).1
              else r2.1
            | none => r2.1
          let s4 := deleteTransaction s3 txnId
          let s5 := deleteCode s4 code
          let joined := " ".intercalate ((txn.provider.map (fun p => p.scopes)).getD [])
          let scope :=
            if !(joined == "") then joined
            else if strTruthy txn.scope then txn.scope.getD "" else ""
          (s5, .ok
            { access_token := rsAccess,
              refresh_token := rsRefresh,
              token_type := "bearer",
              expires_in := 3600,
              scope := scope })

/-! ## SSRF guard (oauth/ssrf.ts) -/

def BLOCKED_HOSTS : List String := ["localhost", "127.0.0.1", "::1", "0.0.0.0", "[::1]"]

/-- `/^172\.(1[6-9]|2\d|3[01])\./` as an explicit second-octet check. -/
def is172Private (hostname : String) : Bool :=
  ["16", "17", "18", "19", "20", "21", "22", "23", "24", "25", "26", "27",
    "28", "29", "30", "31"].any (fun b => strStartsWith hostname ("172." ++ b ++ "."))

/-- `PRIVATE_IP_PATTERNS` applied to the (already lowercased) hostname. -/
def isPrivateIp (hostname : String) : Bool :=
  strStartsWith hostname "10." || is172Private hostname ||
  strStartsWith hostname "192.168." || strStartsWith hostname "169.254." ||
  strStartsWith hostname "fc00:" || strStartsWith hostname "fd00:" ||
  strStartsWith hostname "fe80:"

/-- `BLOCKED_DOMAIN_PATTERNS`: internal domain suffixes. -/
def isBlockedDomain (hostname : String) : Bool :=
  let lower := strToLower hostname
  [".local", ".internal", ".localhost", ".localdomain", ".corp", ".lan"].any
    (fun suffix => strEndsWith lower suffix)

/-- `SsrfCheckResult`. -/
inductive SsrfCheck : Type
  | safe
  | blocked (reason : String)
deriving DecidableEq, Repr

/-- `checkSsrfSafe` over the parsed URL (`none` = the URL constructor threw). -/
def checkSsrfSafe (parsed : Option UrlView) (requireNonRootPath : Bool) : SsrfCheck :=
  match parsed with
  | none => .blocked "invalid_url"
  | some url =>
    if !(url.protocol == "https:") then .blocked "https_required"
    else
      let hostname := strToLower url.hostname
      if BLOCKED_HOSTS.contains hostname then .blocked "blocked_host"
      else if isPrivateIp hostname then .blocked "private_ip"
      else if isBlockedDomain hostname then .blocked "internal_domain"
      else if requireNonRootPath && (url.pathname == "/" || url.pathname == "") then
        .blocked "root_path_not_allowed"
      else .safe

/-! ## CIMD metadata fetch (oauth/cimd.ts) -/

/-- Validated `ClientMetadata` (the optional URL fields checked by the zod
schema but unused by the flow are not carried). -/
structure ClientMetadata where
  client_id : String
  client_name : Option String
  redirect_uris : List String
deriving DecidableEq, Repr

/-- `isClientIdUrl`: an `https://` URL with a non-root path. -/
def isClientIdUrl (parse : String → Option UrlView) (clientId : String) : Bool :=
  if !(strStartsWith clientId "https://") then false
  else
    match parse clientId with
    | none => false
    | some url => !(url.pathname == "/") && url.pathname.length > 1

/-- `isDomainAllowed`: exact hostname match or dot-suffix match. -/
def isDomainAllowed (parse : String → Option UrlView) (clientIdUrl : String)
    (allowedDomains : Option (List String)) : Bool :=
  match allowedDomains with
  | none => true
  | some ds =>
    if ds.isEmpty then true
    else
      match parse clientIdUrl with
      | none => false
      | some url =>
        let hostname := strToLower url.hostname
        ds.any (fun domain =>
          let d := strToLower domain
          hostname == d || strEndsWith hostname ("." ++ d))

/-- The HTTP response seen by the CIMD fetcher (network oracle). -/
structure HttpResponseE where
  ok : Bool
  contentLength : Option Int
  contentType : Option String
  body : String
  status : Int
deriving DecidableEq, Repr

/-- Outcome of the CIMD `fetch` call. -/
inductive FetchOutcome : Type
  | response (r : HttpResponseE)
  | abortTimeout
  | networkError (msg : String)
deriving DecidableEq, Repr

/-- `contentType.includes(sub)`. -/
def containsSubstr (s sub : String) : Bool :=
  (s.splitOn sub).length > 1

/-- `CimdFetchResult`. -/
inductive CimdFetchResult : Type
  | success (metadata : ClientMetadata)
  | failure (error : String)
deriving DecidableEq, Repr

/-- `fetchClientMetadata` (oauth/cimd.ts): SSRF check, then domain
allowlist, then the network fetch and the response pipeline.  `net` is the
network oracle, `validateSchema` stands for the external zod
`ClientMetadataSchema.safeParse` combined with `JSON.parse` (an `Except`
whose error is the zod message, `invalid_json` being a distinct tag).
Returns the result plus a flag recording whether a network connection was
opened. -/
def fetchClientMetadata (parse : String → Option UrlView)
    (validateSchema : String → Except String ClientMetadata)
    (jsonOk : String → Bool)
    (clientIdUrl : String) (maxBytes : Int)
    (allowedDomains : Option (List String)) (net : FetchOutcome) :
    CimdFetchResult × Bool :=
  match checkSsrfSafe (parse clientIdUrl) true with
  | .blocked reason => (.failure ("ssrf_blocked: " ++ reason), false)
  | .safe =>
    if !(isDomainAllowed parse clientIdUrl allowedDomains) then
      (.failure "domain_not_allowed", false)
    else
      match net with
      | .abortTimeout => (.failure "fetch_timeout", true)
      | .networkError m => (.failure ("fetch_error: " ++ m), true)
      | .response r =>
        if !r.ok then (.failure ("fetch_failed: " ++ toString r.status), true)
        else if (match r.contentLength with
                 | some n => decide (n > maxBytes)
                 | none => false) then (.failure "metadata_too_large", true)
        else if !(containsSubstr (r.contentType.getD "") "application/json" ||
            containsSubstr (r.contentType.getD "") "text/json") then
          (.failure "invalid_content_type", true)
        else if r.body.length > maxBytes.toNat then (.failure "metadata_too_large", true)
        else if !(jsonOk r.body) then (.failure "invalid_json", true)
        else
          match validateSchema r.body with
          | .error msg => (.failure ("invalid_metadata: " ++ msg), true)
          | .ok parsedMeta =>
            if !(parsedMeta.client_id == clientIdUrl) then
              (.failure "client_id_mismatch", true)
            else (.success parsedMeta, true)

/-- `validateRedirectUri`: the redirect URI must be listed in the metadata. -/
def validateRedirectUri (metadata : ClientMetadata) (redirectUri : String) : Bool :=
  metadata.redirect_uris.contains redirectUri


/-! ## `/authorize` and the provider callback (oauth/flow.ts) -/

/-- `AuthorizeInput`. -/
structure AuthorizeInput where
  redirectUri : Option String
  codeChallenge : Option String
  codeChallengeMethod : Option String
  clientId : Option String
  state : Option String
  requestedScope : Option String
  sid : Option String
deriving DecidableEq, Repr

/-- The composite state object `{tid, cs, cr, sid}`. -/
structure StateObj where
  tid : Option String
  cs : Option String
  cr : Option String
  sid : Option String
deriving DecidableEq, Repr

/-- Platform / library / randomness oracles used by `handleAuthorize`:
WHATWG URL parsing and resolution, `URLSearchParams` parsing,
`base64UrlEncodeJson` of the composite state, the zod + JSON pipeline for
CIMD, the CIMD network fetch, and the opaque-token draws. -/
structure AuthorizeDeps where
  parse : String → Option UrlView
  resolveUrl : String → String → String
  parseQuery : String → List (String × String)
  encodeState : StateObj → String
  validateSchema : String → Except String ClientMetadata
  jsonOk : String → Bool
  net : FetchOutcome
  freshTxnId : String
  freshCode : String

/-- `options.cimd` for `handleAuthorize`. -/
structure CimdOptions where
  enabled : Option Bool
  timeoutMs : Option Int
  maxBytes : Option Int
  allowedDomains : Option (List String)
deriving DecidableEq, Repr

/-- Outcome of `handleAuthorize` (thrown tagged errors become `failure`). -/
inductive AuthorizeOutcome : Type
  | redirect (r : RedirectSpec) (txnId : String)
  | failure (error : String)
deriving DecidableEq, Repr

/-- Result of `handleAuthorize`: final store, outcome, and whether the CIMD
fetch opened a network connection. -/
structure AuthorizeResult where
  store : TokenStoreState
  outcome : AuthorizeOutcome
  cimdFetched : Bool
deriving Repr

/-- `handleAuthorize` (flow.ts).  Validates the input, optionally resolves
a CIMD client, saves the transaction, and either redirects to the provider
(production) or mints a code directly (dev shortcut). -/
def handleAuthorize (deps : AuthorizeDeps) (input : AuthorizeInput)
    (store : TokenStoreState) (now : Int) (providerConfig : ProviderConfig)
    (oauthConfig : OAuthConfig) (baseUrl : String) (isDev : Bool)
    (callbackPath : Option String) (cimd : Option CimdOptions) : AuthorizeResult :=
  if !(strTruthy input.redirectUri) then
    ⟨store, .failure "invalid_request: redirect_uri is required", false⟩
  else if !(strTruthy input.codeChallenge) ||
      !(input.codeChallengeMethod == some "S256") then
    ⟨store, .failure "invalid_request: PKCE code_challenge with S256 method is required",
      false⟩
  else
    let cimdEnabled := ((cimd.map (fun c => c.enabled)).join).getD true
    let cimdStep : Except (String × Bool) Bool :=
      if strTruthy input.clientId && isClientIdUrl deps.parse (input.clientId.getD "") then
        if !cimdEnabled then
          .error ("invalid_client: URL-based client_id not supported", false)
        else
          let fetched := fetchClientMetadata deps.parse deps.validateSchema deps.jsonOk
            (input.clientId.getD "")
            (((cimd.map (fun c => c.maxBytes)).join).getD 65536)
            ((cimd.map (fun c => c.allowedDomains)).join) deps.net
          match fetched.1 with
          | .failure e => .error ("invalid_client: " ++ e, fetched.2)
          | .success metadata =>
            if !(validateRedirectUri metadata (input.redirectUri.getD "")) then
              .error ("invalid_request: redirect_uri not registered for this client",
                fetched.2)
            else .ok fetched.2
      else .ok false
    match cimdStep with
    | .error e => ⟨store, .failure e.1, e.2⟩
    | .ok didFetch =>
      let txnId := deps.freshTxnId
      let store := saveTransaction store now txnId
        { codeChallenge := input.codeChallenge.getD "",
          state := input.state,
          scope := input.requestedScope,
          createdAt := now,
          sid := input.sid,
          provider := none } none
      if strTruthy providerConfig.clientId && strTruthy providerConfig.clientSecret then
        let authorizationEndpoint := deps.resolveUrl
          (if strTruthy providerConfig.authorizationEndpointPath then
            providerConfig.authorizationEndpointPath.getD "" else "/authorize")
          providerConfig.accountsUrl
        let cb := deps.resolveUrl
          (if strTruthy callbackPath then callbackPath.getD "" else "/oauth/callback")
          baseUrl
        let scopeToUse :=
          if strTruthy providerConfig.oauthScopes then providerConfig.oauthScopes.getD ""
          else if strTruthy input.requestedScope then input.requestedScope.getD ""
          else ""
        let encoded := deps.encodeState
          ⟨some txnId, input.state, input.redirectUri, input.sid⟩
        let compositeState := if encoded == "" then txnId else encoded
        let params0 : List (String × String) :=
          [("response_type", "code"), ("client_id", providerConfig.clientId.getD "")]
        let params1 := mapSet params0 "redirect_uri" cb
        let params2 := if !(scopeToUse == "") then mapSet params1 "scope" scopeToUse
          else params1
        let params3 := mapSet params2 "state" compositeState
        let params4 :=
          if strTruthy providerConfig.extraAuthParams then
            (deps.parseQuery (providerConfig.extraAuthParams.getD "")).foldl
              (fun acc kv => mapSet acc kv.1 kv.2) params3
          else params3
        match deps.parse authorizationEndpoint with
        | none => ⟨store, .failure "Invalid URL", didFetch⟩
        | some _ => ⟨store, .redirect ⟨authorizationEndpoint, params4⟩ txnId, didFetch⟩
      else
        let code := deps.freshCode
        let store := saveCode store now code txnId none
        let safe :=
          if isAllowedRedirect deps.parse (input.redirectUri.getD "") oauthConfig isDev then
            input.redirectUri.getD ""
          else oauthConfig.redirectUri
        match deps.parse safe with
        | none => ⟨store, .failure "Invalid URL", didFetch⟩
        | some _ =>
          let params : List (String × String) :=
            [("code", code)] ++
              (if strTruthy input.state then [("state", input.state.getD "")] else [])
          ⟨store, .redirect ⟨safe, params⟩ txnId, didFetch⟩

/-- Outcome of `handleProviderCallback`. -/
inductive CallbackOutcome : Type
  | redirect (r : RedirectSpec) (txnId : String) (providerTokens : ProviderTokens)
  | failure (error : String)
deriving DecidableEq, Repr

/-- Oracles for `handleProviderCallback`: URL parsing/resolution, the
`base64UrlDecodeJson` of the composite state, the upstream code exchange
(network), and the RS code draw. -/
structure CallbackDeps where
  parse : String → Option UrlView
  resolveUrl : String → String → String
  decodeState : String → Option StateObj
  exchange : UpstreamOutcome
  freshCode : String

/-- `handleProviderCallback` (flow.ts): decode the composite state, load
the transaction, exchange the provider code, persist the provider token
into the transaction, mint an RS code, and redirect to the (allowlisted)
client redirect URI.  The `provider_no_token` throw happens inside the
`try` block, so the surrounding catch re-tags it as `fetch_failed`. -/
def handleProviderCallback (deps : CallbackDeps) (compositeState providerCode : String)
    (store : TokenStoreState) (now : Int) (providerConfig : ProviderConfig)
    (oauthConfig : OAuthConfig) (baseUrl : String) (isDev : Bool)
    (callbackPath : Option String) : TokenStoreState × CallbackOutcome :=
  let decoded := (deps.decodeState compositeState).getD ⟨none, none, none, none⟩
  let txnId := if strTruthy decoded.tid then decoded.tid.getD "" else compositeState
  let r1 := getTransaction store now txnId
  match r1.2 with
  | none => (r1.1, .failure "unknown_txn")
  | some txn =>
    match deps.exchange with
    | .bodyError c d => (r1.1, .failure (("provider_token_error: " ++ c ++ " " ++ d).trim))
    | .networkError m => (r1.1, .failure ("fetch_failed: " ++ m))
    | .response result =>
      if !(strTruthy result.access_token) then
        (r1.1, .failure "fetch_failed: provider_no_token")
      else
        let expiresIn := result.expires_in.getD 3600
        let expiresAt := now + expiresIn * 1000
        let scopes := splitScopes (result.scope.getD "")
        let providerTokens : ProviderTokens :=
          { access_token := result.access_token.getD "",
            refresh_token := result.refresh_token,
            expires_at := some expiresAt,
            scopes := scopes }
        let store := saveTransaction r1.1 now txnId { txn with provider := some providerTokens } none
        let asCode := deps.freshCode
        let store := saveCode store now asCode txnId none
        let clientRedirect :=
          if strTruthy decoded.cr then decoded.cr.getD "" else oauthConfig.redirectUri
        let safe :=
          if isAllowedRedirect deps.parse clientRedirect oauthConfig isDev then clientRedirect
          else oauthConfig.redirectUri
        match deps.parse safe with
        | none => (store, .failure "fetch_failed: Invalid URL")
        | some _ =>
          let params : List (String × String) :=
            [("code", asCode)] ++
              (if strTruthy decoded.cs then [("state", decoded.cs.getD "")] else [])
          (store, .redirect ⟨safe, params⟩ txnId providerTokens)


/-! ## Session store (storage/memory.ts, MemorySessionStore) -/

/-- Internal session entry: `SessionRecord & {expiresAt, sessionId}`.
A JS `provider: null` is collapsed into `none`. -/
structure InternalSession where
  sessionId : String
  apiKey : Option String
  rs_access_token : Option String
  rs_refresh_token : Option String
  provider : Option ProviderTokens
  created_at : Int
  last_accessed : Int
  initialized : Option Bool
  protocolVersion : Option String
  expiresAt : Int
deriving DecidableEq, Repr

/-- The incoming `SessionRecord` value consumed by `put`. -/
structure SessionRecordV where
  apiKey : Option String
  rs_access_token : Option String
  rs_refresh_token : Option String
  provider : Option ProviderTokens
  created_at : Int
  last_accessed : Int
  initialized : Option Bool
  protocolVersion : Option String
deriving DecidableEq, Repr

/-- State of `MemorySessionStore`. -/
structure SessionState where
  sessions : List (String × InternalSession)
deriving DecidableEq, Repr

def emptySessionStore : SessionState := ⟨[]⟩

/-- `MemorySessionStore.cleanup`: delete every expired session. -/
def sessionCleanup (s : SessionState) (now : Int) : SessionState :=
  ⟨s.sessions.filter (fun e => !(now ≥ e.2.expiresAt))⟩

/-- Liveness test used by the by-api-key scans. -/
def sessionLiveAt (now : Int) (v : InternalSession) : Bool :=
  now < v.expiresAt

/-- `MemorySessionStore.countByApiKey`. -/
def countByApiKey (s : SessionState) (now : Int) (apiKey : String) : Nat :=
  (s.sessions.map Prod.snd).countP
    (fun v => v.apiKey == some apiKey && sessionLiveAt now v)

/-- `MemorySessionStore.getByApiKey` (matching live sessions, most recently
accessed first). -/
def getByApiKey (s : SessionState) (now : Int) (apiKey : String) : List InternalSession :=
  ((s.sessions.map Prod.snd).filter
    (fun v => v.apiKey == some apiKey && sessionLiveAt now v)).mergeSort
    (fun a b => b.last_accessed ≤ a.last_accessed)

/-- One step of the JS `for ... if (P) if (!best || f x < f best)` scan. -/
def selectStep {α : Type} (P : α → Bool) (f : α → Int) (acc : Option α) (x : α) :
    Option α :=
  if P x then
    match acc with
    | none => some x
    | some b => if f x < f b then some x else some b
  else acc

/-- First element minimising `f` among those satisfying `P`. -/
def selectMinBy {α : Type} (P : α → Bool) (f : α → Int) (xs : List α) : Option α :=
  xs.foldl (selectStep P f) none

/-- `MemorySessionStore.deleteOldestByApiKey`: delete the matching live
session with the smallest `last_accessed`. -/
def deleteOldestByApiKey (s : SessionState) (now : Int) (apiKey : String) : SessionState :=
  match selectMinBy (fun v => v.apiKey == some apiKey && sessionLiveAt now v)
      (fun v => v.last_accessed) (s.sessions.map Prod.snd) with
  | some oldest => ⟨mapDelete s.sessions oldest.sessionId⟩
  | none => s

/-- The global-cap eviction inside `create`/`ensure`: sort by `created_at`
and delete the first entry. -/
def evictGlobalOldestSession (s : SessionState) : SessionState :=
  match (s.sessions.mergeSort (fun a b => a.2.created_at ≤ b.2.created_at)).head? with
  | some oldest => ⟨mapDelete s.sessions oldest.1⟩
  | none => s

/-- `MemorySessionStore.create`: enforce the per-api-key cap by pre-deleting
the oldest session for that key, enforce the global cap, insert. -/
def sessionCreate (s : SessionState) (now : Int) (sessionId apiKey : String)
    (ttlMs : Int) : SessionState × InternalSession :=
  let s := if countByApiKey s now apiKey ≥ MAX_SESSIONS_PER_API_KEY then
    deleteOldestByApiKey s now apiKey else s
  let s := if s.sessions.length ≥ MAX_SESSIONS then evictGlobalOldestSession s else s
  let record : InternalSession :=
    { sessionId := sessionId,
      apiKey := some apiKey,
      rs_access_token := none,
      rs_refresh_token := none,
      provider := none,
      created_at := now,
      last_accessed := now,
      initialized := some false,
      protocolVersion := none,
      expiresAt := now + ttlMs }
  (⟨mapSet s.sessions sessionId record⟩, record)

/-- `MemorySessionStore.get`: lazy expiry deletion, else bump
`last_accessed` (note: `expiresAt` is not extended). -/
def sessionGet (s : SessionState) (now : Int) (sessionId : String) :
    SessionState × Option InternalSession :=
  match mapGet s.sessions sessionId with
  | none => (s, none)
  | some v =>
    if now ≥ v.expiresAt then (⟨mapDelete s.sessions sessionId⟩, none)
    else
      let v2 := { v with last_accessed := now }
      (⟨mapSet s.sessions sessionId v2⟩, some v2)

/-- A `Partial<SessionRecord>` patch (present fields overwrite). -/
structure SessionPatch where
  apiKey : Option String
  rs_access_token : Option String
  rs_refresh_token : Option String
  provider : Option ProviderTokens
  initialized : Option Bool
  protocolVersion : Option String
deriving DecidableEq, Repr

/-- `MemorySessionStore.update`: `Object.assign(session, data,
{last_accessed: now})`. -/
def sessionUpdate (s : SessionState) (now : Int) (sessionId : String)
    (data : SessionPatch) : SessionState :=
  match mapGet s.sessions sessionId with
  | none => s
  | some v =>
    let v2 : InternalSession :=
      { v with
        apiKey := data.apiKey <|> v.apiKey,
        rs_access_token := data.rs_access_token <|> v.rs_access_token,
        rs_refresh_token := data.rs_refresh_token <|> v.rs_refresh_token,
        provider := data.provider <|> v.provider,
        initialized := data.initialized <|> v.initialized,
        protocolVersion := data.protocolVersion <|> v.protocolVersion,
        last_accessed := now }
    ⟨mapSet s.sessions sessionId v2⟩

/-- `MemorySessionStore.delete`. -/
def sessionDelete (s : SessionState) (sessionId : String) : SessionState :=
  ⟨mapDelete s.sessions sessionId⟩

/-- `MemorySessionStore.ensure`: refresh the TTL of an existing session, or
insert a bare record (no `apiKey`) under the global cap. -/
def sessionEnsure (s : SessionState) (now : Int) (sessionId : String)
    (ttlMs : Int) : SessionState :=
  match mapGet s.sessions sessionId with
  | some ex =>
    ⟨mapSet s.sessions sessionId
      { ex with expiresAt := now + ttlMs, last_accessed := now }⟩
  | none =>
    let s := if s.sessions.length ≥ MAX_SESSIONS then evictGlobalOldestSession s else s
    ⟨mapSet s.sessions sessionId
      { sessionId := sessionId,
        apiKey := none,
        rs_access_token := none,
        rs_refresh_token := none,
        provider := none,
        created_at := now,
        last_accessed := now,
        initialized := none,
        protocolVersion := none,
        expiresAt := now + ttlMs }⟩

/-- `MemorySessionStore.put`: raw insert of a full record (no cap check). -/
def sessionPut (s : SessionState) (now : Int) (sessionId : String)
    (value : SessionRecordV) (ttlMs : Int) : SessionState :=
  ⟨mapSet s.sessions sessionId
    { sessionId := sessionId,
      apiKey := value.apiKey,
      rs_access_token := value.rs_access_token,
      rs_refresh_token := value.rs_refresh_token,
      provider := value.provider,
      created_at := value.created_at,
      last_accessed := value.last_accessed,
      initialized := value.initialized,
      protocolVersion := value.protocolVersion,
      expiresAt := now + ttlMs }⟩

/-! ## MCP dispatcher (mcp/dispatcher.ts) -/

def LATEST_PROTOCOL_VERSION : String := "2025-06-18"

def SUPPORTED_PROTOCOL_VERSIONS : List String :=
  ["2025-06-18", "2025-03-26", "2024-11-05", "2024-10-07"]

/-- `buildCapabilities()` (core/capabilities.ts): the constant capability
advertisement (`logging` is the empty object and is not carried). -/
structure Capabilities where
  promptsListChanged : Bool
  resourcesListChanged : Bool
  resourcesSubscribe : Bool
  toolsListChanged : Bool
deriving DecidableEq, Repr

def buildCapabilities : Capabilities :=
  { promptsListChanged := true,
    resourcesListChanged := true,
    resourcesSubscribe := true,
    toolsListChanged := true }

def SERVER_METADATA_title : String := "Allegro MCP Server"

def SERVER_METADATA_instructions : String :=
  "Use the available tools to inspect resources, run API calls, and keep responses concise."

/-- `McpServerConfig`. -/
structure McpServerConfigE where
  title : String
  version : String
  instructions : Option String
deriving DecidableEq, Repr

/-- Client info supplied at `initialize`. -/
structure ClientInfoE where
  name : String
  version : String
deriving DecidableEq, Repr

/-- `initialize` params. -/
structure InitializeParamsE where
  protocolVersion : Option String
  clientInfo : Option ClientInfoE
deriving DecidableEq, Repr

/-- `McpSessionState` written by `handleInitialize`. -/
structure McpSessionStateE where
  initialized : Bool
  clientInfo : Option ClientInfoE
  protocolVersion : Option String
deriving DecidableEq, Repr

/-- The `initialize` result body. -/
structure InitializeResultE where
  protocolVersion : String
  capabilities : Capabilities
  serverName : String
  serverVersion : String
  instructions : String
deriving DecidableEq, Repr

/-- A JSON-RPC error object. -/
structure JsonRpcError where
  code : Int
  message : String
deriving DecidableEq, Repr

/-- A JSON-RPC handler outcome: `{result}` or `{error}`. -/
inductive JsonRpcOutcome (ρ : Type) : Type
  | ok (r : ρ)
  | err (e : JsonRpcError)
deriving DecidableEq, Repr

/-- `handleInitialize` (dispatcher.ts): negotiate the protocol version
(`String(params?.protocolVersion || LATEST)`, echoed when supported,
otherwise the latest supported), record the session state, and always
return a `{result}`. -/
def handleInitialize (cfg : McpServerConfigE) (params : InitializeParamsE) :
    McpSessionStateE × JsonRpcOutcome InitializeResultE :=
  let requestedVersion :=
    if strTruthy params.protocolVersion then params.protocolVersion.getD ""
    else LATEST_PROTOCOL_VERSION
  let protocolVersion :=
    if SUPPORTED_PROTOCOL_VERSIONS.contains requestedVersion then requestedVersion
    else LATEST_PROTOCOL_VERSION
  (⟨false, params.clientInfo, some protocolVersion⟩,
   .ok
     { protocolVersion := protocolVersion,
       capabilities := buildCapabilities,
       serverName := if cfg.title == "" then SERVER_METADATA_title else cfg.title,
       serverVersion := if cfg.version == "" then "1.0.0" else cfg.version,
       instructions :=
         if strTruthy cfg.instructions then cfg.instructions.getD ""
         else SERVER_METADATA_instructions })

/-! ## tools/call cancellation (dispatcher.ts) -/

/-- The canonical cancellation error surfaced by `handleToolsCall`. -/
def REQUEST_CANCELLED_ERROR : JsonRpcError :=
  ⟨-32603, "Request was cancelled"⟩

/-- The cancellation registry: JSON-RPC request id → the `aborted` flag of
the `AbortController` registered for it. -/
def CancellationRegistryE : Type := List (Int × Bool)

/-- `notifications/cancelled` handling inside `handleMcpNotification`: abort
the registered controller when the request id is known; an unknown id is
logged and silently accepted (the notification is handled either way). -/
def handleCancelledNotification (reg : CancellationRegistryE) (requestId : Option Int) :
    CancellationRegistryE × Bool :=
  match requestId with
  | none => (reg, true)
  | some rid =>
    if (mapGet reg rid).isSome then
      (reg.map (fun e => if e.1 == rid then (e.1, true) else e), true)
    else (reg, true)

/-- What `executeSharedTool` does for this call: complete with a result
(the tool payload is abstracted as a string) or throw. -/
inductive ToolBehavior : Type
  | completes (content : String)
  | raises (msg : String)
deriving DecidableEq, Repr

/-- When the concurrent `notifications/cancelled` for this request id is
processed, relative to `handleToolsCall`: before the controller is
registered, while the tool runs, after the `finally` removed the
controller, or not at all. -/
inductive CancelTiming : Type
  | beforeRegistration
  | duringExecution
  | afterCompletion
  | noCancel
deriving DecidableEq, Repr

/-- One `tools/call` dispatch interleaved with at most one
`notifications/cancelled` for its request id.  Mirrors `handleToolsCall`:
register a fresh controller, run the tool, map a throw to the canonical
cancellation error exactly when the signal was aborted, and always remove
the controller in the `finally` clause. -/
def toolsCallWithCancel (requestId : Int) (behavior : ToolBehavior)
    (timing : CancelTiming) : JsonRpcOutcome String × CancellationRegistryE :=
  let reg0 : CancellationRegistryE := []
  let reg0 :=
    if timing == CancelTiming.beforeRegistration then
      (handleCancelledNotification reg0 (some requestId)).1
    else reg0
  let reg1 := mapSet reg0 requestId false
  let reg2 :=
    if timing == CancelTiming.duringExecution then
      (handleCancelledNotification reg1 (some requestId)).1
    else reg1
  let aborted := (mapGet reg2 requestId).getD false
  let result : JsonRpcOutcome String :=
    match behavior with
    | .completes content => .ok content
    | .raises msg =>
      if aborted then .err REQUEST_CANCELLED_ERROR
      else .err ⟨-32603, "Tool execution failed: " ++ msg⟩
  let reg3 := mapDelete reg2 requestId
  let reg4 :=
    if timing == CancelTiming.afterCompletion then
      (handleCancelledNotification reg3 (some requestId)).1
    else reg3
  (result, reg4)

/-! ## Pagination (utils/pagination.ts) -/

/-- A JSON value (numbers are modelled as integers; the cursors this code
writes only ever contain integral offsets). -/
inductive Jsonv : Type
  | jnull
  | jbool (b : Bool)
  | jnum (n : Int)
  | jstr (s : String)
  | jarr (xs : List Jsonv)
  | jobj (fields : List (String × Jsonv))

/-- `parseCursor`: total; any cursor that does not decode (via base64 +
`JSON.parse`, the oracle `decode`) to an object with a numeric `offset`
yields 0.  A `null`/non-object parse or a missing/non-numeric `offset`
field all fall into the 0 branches, matching the `catch` and the `typeof`
guard. -/
def parseCursor (decode : String → Option Jsonv) (cursor : Option String) : Int :=
  if !(strTruthy cursor) then 0
  else
    match decode (cursor.getD "") with
    | none => 0
    | some (Jsonv.jobj fields) =>
      match mapGet fields "offset" with
      | some (Jsonv.jnum n) => n
      | _ => 0
    | some _ => 0

/-- Does the cursor decode to an object carrying a numeric `offset`? -/
def cursorWellFormed (decode : String → Option Jsonv) (cursor : Option String) : Bool :=
  if !(strTruthy cursor) then false
  else
    match decode (cursor.getD "") with
    | some (Jsonv.jobj fields) =>
      match mapGet fields "offset" with
      | some (Jsonv.jnum _) => true
      | _ => false
    | _ => false

/-- `paginateArray`: slice `[max(0, offset), max(0, offset) + limit)` and
emit a `next` cursor when more items remain (`encodeCursor` is the
`createCursor` base64 writer). -/
def paginateArray {α : Type} (decode : String → Option Jsonv)
    (encodeCursor : Int → String) (items : List α) (cursor : Option String)
    (limit : Int) : List α × Option String :=
  let offset := parseCursor decode cursor
  let startIndex := max 0 offset
  let endIndex := startIndex + limit
  let data := (items.drop startIndex.toNat).take (endIndex - startIndex).toNat
  let nextCursor :=
    if endIndex < (items.length : Int) then some (encodeCursor endIndex) else none
  (data, nextCursor)


/-! ## Claim theorems -/

deriving instance DecidableEq for Except

/-- Projection used to observe the negotiated protocol version. -/
def outcomeProtocolVersion : JsonRpcOutcome InitializeResultE → Option String
  | .ok r => some r.protocolVersion
  | .err _ => none

/-- C1: after a successful upstream refresh in `ensureFreshToken` whose
response rotates the provider refresh token, the spec requires the RS
access token to be rotated (fresh 24-byte value, old key dead).  The code
does the opposite: `newRsAccess` is `undefined` exactly when the upstream
rotated, no fresh token is generated, and the old RS access token still
resolves to the (updated) record. -/
theorem c1_refresher_rotation_keeps_old_rs_access :
    (let s0 := (storeRsMapping emptyTokenStore 0 "rsA" ⟨"pa", some "pr", some 1000, []⟩
      (some "rsR") "uuid" DEFAULT_RS_TOKEN_TTL_MS).1
    let call := ensureFreshToken ⟨s0, []⟩ 2000 "rsA"
      (some ⟨"cid", "secret", "https://accounts.example", none⟩)
      (UpstreamOutcome.response ⟨some "pa2", some "pr2", some 3600, some ""⟩)
    call.2 = ⟨"pa2", true⟩ ∧
    ((getByRsAccess call.1.store 2000 "rsA").2.map
      (fun r => r.rs_access_token)) = some "rsA" ∧
    ((getByRsAccess call.1.store 2000 "rsA").2.map
      (fun r => r.provider.refresh_token)) = some (some "pr2")) := by
  decide

/-- C2: two `storeRsMapping` calls that reuse an access key with a fresh
refresh key leave the first record reachable through `getByRsRefresh` while
its own `rs_access_token` resolves to the second record — the two indices
of a held record disagree (and neither side is `null`). -/
theorem c2_token_store_dangling_half_index :
    (let s1 := (storeRsMapping emptyTokenStore 0 "A" ⟨"p1", none, none, []⟩
      (some "R1") "u1" DEFAULT_RS_TOKEN_TTL_MS).1
    let s2 := (storeRsMapping s1 1 "A" ⟨"p2", none, none, []⟩
      (some "R2") "u2" DEFAULT_RS_TOKEN_TTL_MS).1
    ((getByRsRefresh s2 5 "R1").2.map (fun r => r.rs_access_token)) = some "A" ∧
    ((getByRsAccess s2 5 "A").2).isSome = true ∧
    ¬((getByRsAccess s2 5 "A").2 = (getByRsRefresh s2 5 "R1").2)) := by
  decide

/-- C3 counterexample: a `/token` `authorization_code` exchange whose
transaction has no `provider` field does not fail with `invalid_grant`
— it succeeds, returning freshly minted (unmapped) RS tokens. -/
theorem c3_counterexample_missing_provider_succeeds :
    (let s0 := saveCode
      (saveTransaction emptyTokenStore 0 "txn1" ⟨"ch", none, none, 0, none, none⟩ none)
      0 "code1" "txn1" none
    let call := handleToken s0 100 (fun _ => "ch") "newA" "newR" "uuid"
      (UpstreamOutcome.networkError "unused") none
      (TokenInput.authorizationCode "code1" "v")
    call.2 = Except.ok ⟨"newA", "newR", "bearer", 3600, ""⟩ ∧
    ¬(call.2 = Except.error "invalid_grant")) := by
  decide

/-- C4 counterexample: `initialize` offering `2025-11-25` is not echoed —
the dispatcher's accepted set lacks it, so the response negotiates down to
`2025-06-18`. -/
theorem c4_counterexample_2025_11_25_not_echoed :
    outcomeProtocolVersion
      (handleInitialize ⟨"t", "v", none⟩ ⟨some "2025-11-25", none⟩).2 =
        some "2025-06-18" ∧
    ¬(outcomeProtocolVersion
      (handleInitialize ⟨"t", "v", none⟩ ⟨some "2025-11-25", none⟩).2 =
        some "2025-11-25") := by
  decide

/-- C6 counterexample: five `create` calls for fingerprint `K` followed by
one raw `put` yield six live sessions for `K` — `put` bypasses the
per-api-key cap. -/
theorem c6_counterexample_put_exceeds_cap :
    (let s1 := (sessionCreate emptySessionStore 0 "s1" "K" DEFAULT_SESSION_TTL_MS).1
    let s2 := (sessionCreate s1 1 "s2" "K" DEFAULT_SESSION_TTL_MS).1
    let s3 := (sessionCreate s2 2 "s3" "K" DEFAULT_SESSION_TTL_MS).1
    let s4 := (sessionCreate s3 3 "s4" "K" DEFAULT_SESSION_TTL_MS).1
    let s5 := (sessionCreate s4 4 "s5" "K" DEFAULT_SESSION_TTL_MS).1
    let s6 := sessionPut s5 5 "s6" ⟨some "K", none, none, none, 5, 5, none, none⟩
      DEFAULT_SESSION_TTL_MS
    countByApiKey s6 5 "K" = 6 ∧ MAX_SESSIONS_PER_API_KEY < 6) := by
  decide

/-- C7 counterexample: a cancel processed during dispatch does not force the
cancellation error — a handler that completes successfully despite the
aborted signal returns its success result. -/
theorem c7_counterexample_success_despite_cancel :
    (toolsCallWithCancel 1 (ToolBehavior.completes "done")
      CancelTiming.duringExecution).1 = JsonRpcOutcome.ok "done" ∧
    ¬((toolsCallWithCancel 1 (ToolBehavior.completes "done")
      CancelTiming.duringExecution).1 = JsonRpcOutcome.err REQUEST_CANCELLED_ERROR) := by
  decide


/-! ### Store-projection lemmas -/

theorem mapGet_mapDelete {κ α : Type} [BEq κ] [LawfulBEq κ]
    (m : List (κ × α)) (k : κ) : mapGet (mapDelete m k) k = none := by
  induction m with
  | nil => rfl
  | cons e rest ih =>
    by_cases h : e.1 == k
    · simpa [mapDelete, mapGet, List.filter_cons, h] using ih
    · simp only [mapDelete, List.filter_cons] at ih ⊢
      simp only [h, Bool.not_false, if_pos]
      simpa [mapGet, List.find?, h] using ih

theorem getTxnIdByCode_proj (s : TokenStoreState) (now : Int) (c : String) :
    (getTxnIdByCode s now c).1.rsAccessMap = s.rsAccessMap ∧
    (getTxnIdByCode s now c).1.rsRefreshMap = s.rsRefreshMap ∧
    (getTxnIdByCode s now c).1.transactions = s.transactions := by
  unfold getTxnIdByCode
  cases mapGet s.codes c with
  | none => exact ⟨rfl, rfl, rfl⟩
  | some e =>
    dsimp only
    split <;> exact ⟨rfl, rfl, rfl⟩

theorem getTransaction_proj (s : TokenStoreState) (now : Int) (t : String) :
    (getTransaction s now t).1.rsAccessMap = s.rsAccessMap ∧
    (getTransaction s now t).1.rsRefreshMap = s.rsRefreshMap ∧
    (getTransaction s now t).1.codes = s.codes := by
  unfold getTransaction
  cases mapGet s.transactions t with
  | none => exact ⟨rfl, rfl, rfl⟩
  | some e =>
    dsimp only
    split <;> exact ⟨rfl, rfl, rfl⟩

/-- C5: in the `authorization_code` grant, whenever the S256 challenge of
the supplied verifier differs from the stored `code_challenge`, the
exchange fails with `invalid_grant` and the RS token indices are untouched
(no RS tokens are issued). -/
theorem c5_pkce_mismatch_invalid_grant
    (s s1 s2 : TokenStoreState) (now : Int) (s256 : String → String)
    (fa fr fu : String) (up : UpstreamOutcome) (pc : Option ProviderConfig)
    (code codeVerifier txnId : String) (txn : Transaction)
    (h1 : getTxnIdByCode s now code = (s1, some txnId))
    (h2 : getTransaction s1 now txnId = (s2, some txn))
    (h3 : ¬(s256 codeVerifier = txn.codeChallenge)) :
    handleToken s now s256 fa fr fu up pc (.authorizationCode code codeVerifier) =
      (s2, Except.error "invalid_grant") ∧
    s2.rsAccessMap = s.rsAccessMap ∧ s2.rsRefreshMap = s.rsRefreshMap := by
  have hA := getTxnIdByCode_proj s now code
  have hB := getTransaction_proj s1 now txnId
  rw [h1] at hA
  rw [h2] at hB
  have hbeq : (txn.codeChallenge == s256 codeVerifier) = false :=
    beq_eq_false_iff_ne.mpr (fun hh => h3 hh.symm)
  refine ⟨?_, hB.1.trans hA.1, hB.2.1.trans hA.2.1⟩
  simp only [handleToken, h1, h2, hbeq, Bool.not_false, if_pos]

/-- C3 (amended): a `/token` `authorization_code` exchange whose transaction
has no `provider` field creates no RS record (both RS indices are
untouched) and deletes the code and the transaction, but it does not fail:
it returns a success response carrying freshly minted, unmapped RS
tokens. -/
theorem c3_amended_no_mapping_but_success
    (s s1 s2 : TokenStoreState) (now : Int) (s256 : String → String)
    (fa fr fu : String) (up : UpstreamOutcome) (pc : Option ProviderConfig)
    (code codeVerifier txnId : String) (txn : Transaction)
    (h1 : getTxnIdByCode s now code = (s1, some txnId))
    (h2 : getTransaction s1 now txnId = (s2, some txn))
    (hpkce : s256 codeVerifier = txn.codeChallenge)
    (hprov : txn.provider = none) :
    (handleToken s now s256 fa fr fu up pc (.authorizationCode code codeVerifier)).2 =
      Except.ok ⟨fa, fr, "bearer", 3600,
        if strTruthy txn.scope then txn.scope.getD "" else ""⟩ ∧
    (handleToken s now s256 fa fr fu up pc
      (.authorizationCode code codeVerifier)).1.rsAccessMap = s.rsAccessMap ∧
    (handleToken s now s256 fa fr fu up pc
      (.authorizationCode code codeVerifier)).1.rsRefreshMap = s.rsRefreshMap ∧
    mapGet (handleToken s now s256 fa fr fu up pc
      (.authorizationCode code codeVerifier)).1.codes code = none ∧
    mapGet (handleToken s now s256 fa fr fu up pc
      (.authorizationCode code codeVerifier)).1.transactions txnId = none := by
  have hA := getTxnIdByCode_proj s now code
  have hB := getTransaction_proj s1 now txnId
  rw [h1] at hA
  rw [h2] at hB
  have hbeq : (txn.codeChallenge == s256 codeVerifier) = true :=
    beq_iff_eq.mpr hpkce.symm
  simp only [handleToken, h1, h2, hbeq, Bool.not_true, Bool.false_eq_true, if_false,
    hprov, Option.map_none, Option.getD, String.intercalate, deleteTransaction,
    deleteCode]
  refine ⟨?_, hB.1.trans hA.1, hB.2.1.trans hA.2.1, ?_, ?_⟩
  · rfl
  · exact mapGet_mapDelete _ _
  · simpa [hB.2.2, hA.2.2] using mapGet_mapDelete s2.transactions txnId

/-- Concrete token store used to witness the `/token` theorems. -/
def tokenWitnessStore : TokenStoreState :=
  saveCode
    (saveTransaction emptyTokenStore 0 "txn1" ⟨"ch", none, none, 0, none, none⟩ none)
    0 "code1" "txn1" none

theorem c5_pkce_mismatch_invalid_grant_witness :
    handleToken tokenWitnessStore 100 (fun _ => "WRONG") "fa" "fr" "fu"
      (UpstreamOutcome.networkError "unused") none
      (.authorizationCode "code1" "v") =
      (tokenWitnessStore, Except.error "invalid_grant") ∧
    tokenWitnessStore.rsAccessMap = tokenWitnessStore.rsAccessMap ∧
    tokenWitnessStore.rsRefreshMap = tokenWitnessStore.rsRefreshMap :=
  c5_pkce_mismatch_invalid_grant tokenWitnessStore tokenWitnessStore tokenWitnessStore
    100 (fun _ => "WRONG") "fa" "fr" "fu" (UpstreamOutcome.networkError "unused") none
    "code1" "v" "txn1" ⟨"ch", none, none, 0, none, none⟩
    (by decide) (by decide) (by decide)

theorem c3_amended_no_mapping_but_success_witness :
    (handleToken tokenWitnessStore 100 (fun _ => "ch") "fa" "fr" "fu"
      (UpstreamOutcome.networkError "unused") none
      (.authorizationCode "code1" "v")).2 =
      Except.ok ⟨"fa", "fr", "bearer", 3600,
        if strTruthy (none : Option String) then (none : Option String).getD "" else ""⟩ ∧
    (handleToken tokenWitnessStore 100 (fun _ => "ch") "fa" "fr" "fu"
      (UpstreamOutcome.networkError "unused") none
      (.authorizationCode "code1" "v")).1.rsAccessMap = tokenWitnessStore.rsAccessMap ∧
    (handleToken tokenWitnessStore 100 (fun _ => "ch") "fa" "fr" "fu"
      (UpstreamOutcome.networkError "unused") none
      (.authorizationCode "code1" "v")).1.rsRefreshMap = tokenWitnessStore.rsRefreshMap ∧
    mapGet (handleToken tokenWitnessStore 100 (fun _ => "ch") "fa" "fr" "fu"
      (UpstreamOutcome.networkError "unused") none
      (.authorizationCode "code1" "v")).1.codes "code1" = none ∧
    mapGet (handleToken tokenWitnessStore 100 (fun _ => "ch") "fa" "fr" "fu"
      (UpstreamOutcome.networkError "unused") none
      (.authorizationCode "code1" "v")).1.transactions "txn1" = none :=
  c3_amended_no_mapping_but_success tokenWitnessStore tokenWitnessStore tokenWitnessStore
    100 (fun _ => "ch") "fa" "fr" "fu" (UpstreamOutcome.networkError "unused") none
    "code1" "v" "txn1" ⟨"ch", none, none, 0, none, none⟩
    (by decide) (by decide) (by decide) (by decide)


/-- C4 (amended): the set of protocol versions accepted (echoed) at
`initialize` is exactly `SUPPORTED_PROTOCOL_VERSIONS` =
{2025-06-18, 2025-03-26, 2024-11-05, 2024-10-07}; any other offered
version (including `2025-11-25`, which only the HTTP-header check accepts)
negotiates down to `2025-06-18`, and the call still succeeds. -/
theorem c4_amended_negotiation (cfg : McpServerConfigE) (ci : Option ClientInfoE)
    (v : String) :
    (v ∈ SUPPORTED_PROTOCOL_VERSIONS →
      outcomeProtocolVersion (handleInitialize cfg ⟨some v, ci⟩).2 = some v) ∧
    (v ∉ SUPPORTED_PROTOCOL_VERSIONS →
      outcomeProtocolVersion (handleInitialize cfg ⟨some v, ci⟩).2 =
        some LATEST_PROTOCOL_VERSION) ∧
    (∃ r, (handleInitialize cfg ⟨some v, ci⟩).2 = JsonRpcOutcome.ok r) := by
  refine ⟨?_, ?_, ⟨_, rfl⟩⟩
  · intro hv
    have hne : ¬(v = "") := by
      intro h
      subst h
      revert hv
      decide
    have htr : strTruthy (some v) = true := by
      simp [strTruthy, hne]
    have hc : SUPPORTED_PROTOCOL_VERSIONS.contains v = true := by
      simpa using List.elem_iff.mpr hv
    simp only [handleInitialize, outcomeProtocolVersion, htr, if_true, Option.getD_some, hc]
  · intro hv
    by_cases hne : v = ""
    · subst hne
      simp [handleInitialize, outcomeProtocolVersion, strTruthy]
    · have htr : strTruthy (some v) = true := by
        simp [strTruthy, hne]
      have hc : SUPPORTED_PROTOCOL_VERSIONS.contains v = false := by
        cases hcc : SUPPORTED_PROTOCOL_VERSIONS.contains v with
        | false => rfl
        | true => exact absurd (by simpa using hcc) hv
      simp only [handleInitialize, outcomeProtocolVersion, htr, if_true, Option.getD_some,
        hc, Bool.false_eq_true, if_false]

theorem c4_amended_negotiation_witness :
    (outcomeProtocolVersion
      (handleInitialize ⟨"t", "v", none⟩ ⟨some "2025-03-26", none⟩).2 =
        some "2025-03-26") ∧
    (outcomeProtocolVersion
      (handleInitialize ⟨"t", "v", none⟩ ⟨some "bogus", none⟩).2 =
        some LATEST_PROTOCOL_VERSION) :=
  ⟨(c4_amended_negotiation ⟨"t", "v", none⟩ none "2025-03-26").1 (by decide),
   (c4_amended_negotiation ⟨"t", "v", none⟩ none "bogus").2.1 (by decide)⟩

/-- C7 (amended): a cancel that is processed while the tool runs aborts the
registered controller, and if the handler then raises, the outcome is
exactly the canonical error (code -32603, message "Request was
cancelled"); a handler that completes successfully returns its result even
when the abort arrived (cancellation is never reported retroactively); a
raise without an abort is an ordinary tool failure; and the `finally`
clause always clears the registry entry. -/
theorem c7_amended_cancellation_contract (rid : Int) (behavior : ToolBehavior)
    (timing : CancelTiming) :
    (∀ m, behavior = ToolBehavior.raises m → timing = CancelTiming.duringExecution →
      (toolsCallWithCancel rid behavior timing).1 =
        JsonRpcOutcome.err REQUEST_CANCELLED_ERROR) ∧
    (∀ c, behavior = ToolBehavior.completes c →
      (toolsCallWithCancel rid behavior timing).1 = JsonRpcOutcome.ok c) ∧
    (∀ m, behavior = ToolBehavior.raises m → ¬(timing = CancelTiming.duringExecution) →
      (toolsCallWithCancel rid behavior timing).1 =
        JsonRpcOutcome.err ⟨-32603, "Tool execution failed: " ++ m⟩) ∧
    (toolsCallWithCancel rid behavior timing).2 = [] := by
  cases timing <;> cases behavior <;>
    simp [toolsCallWithCancel, handleCancelledNotification, mapGet, mapSet, mapDelete,
      List.find?, List.filter]

theorem c7_amended_cancellation_contract_witness :
    (toolsCallWithCancel 7 (ToolBehavior.raises "boom")
      CancelTiming.duringExecution).1 = JsonRpcOutcome.err REQUEST_CANCELLED_ERROR ∧
    (toolsCallWithCancel 7 (ToolBehavior.completes "payload")
      CancelTiming.noCancel).1 = JsonRpcOutcome.ok "payload" ∧
    (toolsCallWithCancel 7 (ToolBehavior.raises "boom")
      CancelTiming.beforeRegistration).1 =
        JsonRpcOutcome.err ⟨-32603, "Tool execution failed: boom"⟩ :=
  ⟨(c7_amended_cancellation_contract 7 (ToolBehavior.raises "boom")
      CancelTiming.duringExecution).1 "boom" rfl rfl,
   (c7_amended_cancellation_contract 7 (ToolBehavior.completes "payload")
      CancelTiming.noCancel).2.1 "payload" rfl,
   (c7_amended_cancellation_contract 7 (ToolBehavior.raises "boom")
      CancelTiming.beforeRegistration).2.2.1 "boom" rfl (by decide)⟩

/-- C10: `parseCursor` is total by construction, and any cursor that is
missing or does not decode to a JSON object with a numeric `offset` parses
to 0, so `paginateArray` returns the first page (`items.take limit`). -/
theorem c10_malformed_cursor_first_page {α : Type} (decode : String → Option Jsonv)
    (encodeCursor : Int → String) (items : List α) (cursor : Option String)
    (limit : Int) (h : cursorWellFormed decode cursor = false) :
    parseCursor decode cursor = 0 ∧
    (paginateArray decode encodeCursor items cursor limit).1 = items.take limit.toNat := by
  have h0 : parseCursor decode cursor = 0 := by
    unfold parseCursor
    unfold cursorWellFormed at h
    by_cases ht : strTruthy cursor = true
    · simp only [ht, Bool.not_true, Bool.false_eq_true, if_false] at h ⊢
      cases hd : decode (cursor.getD "") with
      | none => rfl
      | some j =>
        rw [hd] at h
        cases j with
        | jobj fields =>
          dsimp only at h ⊢
          cases ho : mapGet fields "offset" with
          | none => simp [ho]
          | some jv => cases jv <;> simp [ho] at h ⊢
        | jnull => rfl
        | jbool b => rfl
        | jnum n => rfl
        | jstr w => rfl
        | jarr xs => rfl
    · have ht2 : strTruthy cursor = false := by
        cases hcc : strTruthy cursor with
        | false => rfl
        | true => exact absurd hcc ht
      simp [ht2]
  refine ⟨h0, ?_⟩
  unfold paginateArray
  rw [h0]
  simp


theorem c10_malformed_cursor_first_page_witness :
    cursorWellFormed (fun _ => none) (some "garbage") = false ∧
    (parseCursor (fun _ => none) (some "garbage") = 0 ∧
      (paginateArray (fun _ => none) (fun _ => "") ["a", "b", "c"] (some "garbage")
        2).1 = ["a", "b", "c"].take ((2 : Int)).toNat) :=
  ⟨by decide,
   c10_malformed_cursor_first_page (fun _ => none) (fun _ => "") ["a", "b", "c"]
     (some "garbage") 2 (by decide)⟩

/-- C8: any CIMD `client_id` URL rejected by `checkSsrfSafe` makes
`handleAuthorize` fail with `invalid_client: ssrf_blocked: <reason>`, with
no network fetch performed and the store untouched. -/
theorem c8_ssrf_rejected_blocks_authorize_without_fetch
    (deps : AuthorizeDeps) (input : AuthorizeInput) (store : TokenStoreState)
    (now : Int) (pc : ProviderConfig) (oc : OAuthConfig) (baseUrl : String)
    (isDev : Bool) (cbPath : Option String) (cimd : Option CimdOptions)
    (reason : String)
    (hRedirect : strTruthy input.redirectUri = true)
    (hChallenge : strTruthy input.codeChallenge = true)
    (hMethod : input.codeChallengeMethod = some "S256")
    (hClient : strTruthy input.clientId = true)
    (hUrl : isClientIdUrl deps.parse (input.clientId.getD "") = true)
    (hEnabled : ((cimd.map (fun c => c.enabled)).join).getD true = true)
    (hSsrf : checkSsrfSafe (deps.parse (input.clientId.getD "")) true =
      SsrfCheck.blocked reason) :
    handleAuthorize deps input store now pc oc baseUrl isDev cbPath cimd =
      ⟨store, .failure ("invalid_client: " ++ ("ssrf_blocked: " ++ reason)), false⟩ := by
  simp only [handleAuthorize, fetchClientMetadata, hRedirect, hChallenge, hMethod,
    hClient, hUrl, hEnabled, hSsrf, Bool.not_true, Bool.false_eq_true, if_false,
    beq_self_eq_true, Bool.false_or, Bool.or_self, Bool.and_self, if_true]

/-- C9: when the client-supplied redirect URI fails the allowlist check, the
dev-shortcut `/authorize` path and the provider callback both return a
redirect (not an error) whose target is silently replaced by the configured
`oauthConfig.redirectUri`, still carrying the freshly minted code and the
echoed state. -/
theorem c9_allowlist_fallback_attaches_code :
    (∀ (deps : AuthorizeDeps) (input : AuthorizeInput) (store : TokenStoreState)
        (now : Int) (pc : ProviderConfig) (oc : OAuthConfig) (baseUrl : String)
        (isDev : Bool) (cbPath : Option String) (cimd : Option CimdOptions)
        (u : UrlView),
      strTruthy input.redirectUri = true →
      strTruthy input.codeChallenge = true →
      input.codeChallengeMethod = some "S256" →
      strTruthy input.clientId = false →
      (strTruthy pc.clientId && strTruthy pc.clientSecret) = false →
      isAllowedRedirect deps.parse (input.redirectUri.getD "") oc isDev = false →
      deps.parse oc.redirectUri = some u →
      (handleAuthorize deps input store now pc oc baseUrl isDev cbPath cimd).outcome =
        .redirect
          ⟨oc.redirectUri,
            [("code", deps.freshCode)] ++
              (if strTruthy input.state then [("state", input.state.getD "")] else [])⟩
          deps.freshTxnId) ∧
    (∀ (deps : CallbackDeps) (compositeState providerCode : String)
        (store s1 : TokenStoreState) (now : Int) (pc : ProviderConfig)
        (oc : OAuthConfig) (baseUrl : String) (isDev : Bool) (cbPath : Option String)
        (stobj : StateObj) (txn : Transaction) (r : UpstreamTokenResponse)
        (u : UrlView),
      deps.decodeState compositeState = some stobj →
      strTruthy stobj.tid = true →
      getTransaction store now (stobj.tid.getD "") = (s1, some txn) →
      deps.exchange = UpstreamOutcome.response r →
      strTruthy r.access_token = true →
      strTruthy stobj.cr = true →
      isAllowedRedirect deps.parse (stobj.cr.getD "") oc isDev = false →
      deps.parse oc.redirectUri = some u →
      (handleProviderCallback deps compositeState providerCode store now pc oc baseUrl
        isDev cbPath).2 =
        .redirect
          ⟨oc.redirectUri,
            [("code", deps.freshCode)] ++
              (if strTruthy stobj.cs then [("state", stobj.cs.getD "")] else [])⟩
          (stobj.tid.getD "")
          ⟨r.access_token.getD "", r.refresh_token,
            some (now + (r.expires_in.getD 3600) * 1000),
            splitScopes (r.scope.getD "")⟩) := by
  constructor
  · intro deps input store now pc oc baseUrl isDev cbPath cimd u hRedirect hChallenge
      hMethod hClient hProd hAllow hParse
    simp only [handleAuthorize, hRedirect, hChallenge, hMethod, hClient, hProd, hAllow,
      hParse, Bool.not_true, Bool.false_eq_true, if_false, beq_self_eq_true,
      Bool.false_or, Bool.or_self, Bool.false_and, if_true]
  · intro deps compositeState providerCode store s1 now pc oc baseUrl isDev cbPath stobj
      txn r u hDecode hTid hTxn hExchange hTok hCr hAllow hParse
    simp only [handleProviderCallback, hDecode, hTid, hTxn, hExchange, hTok, hCr, hAllow,
      hParse, Option.getD_some, Bool.not_true, Bool.false_eq_true, if_false, if_true]


/-- URL-parse oracle used by the C8/C9 witnesses. -/
def witnessParse : String → Option UrlView := fun s =>
  if s == "https://10.0.0.1/cimd.json" then
    some ⟨"https:", "10.0.0.1", "10.0.0.1", "/cimd.json"⟩
  else if s == "https://app.example/cb" then
    some ⟨"https:", "app.example", "app.example", "/cb"⟩
  else none

def c8Deps : AuthorizeDeps :=
  ⟨witnessParse, fun p b => b ++ p, fun _ => [], fun _ => "enc",
   fun _ => Except.error "na", fun _ => false, FetchOutcome.networkError "offline",
   "txn16", "code16"⟩

def c8Input : AuthorizeInput :=
  ⟨some "https://client.example/cb", some "challenge", some "S256",
   some "https://10.0.0.1/cimd.json", none, none, none⟩

def witnessProviderConfig : ProviderConfig :=
  ⟨none, none, "https://accounts.example", none, none, none, none⟩

def witnessOAuthConfig : OAuthConfig := ⟨"https://app.example/cb", [], false⟩

theorem c8_ssrf_rejected_blocks_authorize_without_fetch_witness :
    handleAuthorize c8Deps c8Input emptyTokenStore 0 witnessProviderConfig
      witnessOAuthConfig "https://base.example" false none none =
      ⟨emptyTokenStore,
        .failure ("invalid_client: " ++ ("ssrf_blocked: " ++ "private_ip")), false⟩ :=
  c8_ssrf_rejected_blocks_authorize_without_fetch c8Deps c8Input emptyTokenStore 0
    witnessProviderConfig witnessOAuthConfig "https://base.example" false none none
    "private_ip" (by decide) (by decide) (by decide) (by decide) (by decide)
    (by decide) (by decide)

def c9AuthorizeDeps : AuthorizeDeps :=
  ⟨witnessParse, fun p b => b ++ p, fun _ => [], fun _ => "enc",
   fun _ => Except.error "na", fun _ => false, FetchOutcome.networkError "offline",
   "txn1A", "code1A"⟩

def c9AuthorizeInput : AuthorizeInput :=
  ⟨some "https://evil.example/cb", some "ch", some "S256", none, some "st", none, none⟩

def c9CallbackDeps : CallbackDeps :=
  ⟨witnessParse, fun p b => b ++ p,
   fun _ => some ⟨some "txn9", some "cs9", some "https://evil2.example/cb", none⟩,
   UpstreamOutcome.response ⟨some "AT", some "RT", some 100, some "a b"⟩, "code9"⟩

def c9CallbackStore : TokenStoreState :=
  saveTransaction emptyTokenStore 0 "txn9" ⟨"ch", none, none, 0, none, none⟩ none

theorem c9_allowlist_fallback_attaches_code_witness :
    ((handleAuthorize c9AuthorizeDeps c9AuthorizeInput emptyTokenStore 0
      witnessProviderConfig witnessOAuthConfig "https://base.example" false none
      none).outcome =
      .redirect
        ⟨witnessOAuthConfig.redirectUri,
          [("code", c9AuthorizeDeps.freshCode)] ++
            (if strTruthy c9AuthorizeInput.state then
              [("state", c9AuthorizeInput.state.getD "")] else [])⟩
        c9AuthorizeDeps.freshTxnId) ∧
    ((handleProviderCallback c9CallbackDeps "opaque-state" "provider-code"
      c9CallbackStore 100 witnessProviderConfig witnessOAuthConfig
      "https://base.example" false none).2 =
      .redirect
        ⟨witnessOAuthConfig.redirectUri,
          [("code", c9CallbackDeps.freshCode)] ++
            (if strTruthy (some "cs9") then [("state", (some "cs9").getD "")] else [])⟩
        ((some "txn9").getD "")
        ⟨(some "AT").getD "", some "RT", some (100 + ((100 : Int)) * 1000),
          splitScopes ((some "a b").getD "")⟩) :=
  ⟨c9_allowlist_fallback_attaches_code.1 c9AuthorizeDeps c9AuthorizeInput emptyTokenStore
    0 witnessProviderConfig witnessOAuthConfig "https://base.example" false none none
    ⟨"https:", "app.example", "app.example", "/cb"⟩
    (by decide) (by decide) (by decide) (by decide) (by decide) (by decide) (by decide),
   c9_allowlist_fallback_attaches_code.2 c9CallbackDeps "opaque-state" "provider-code"
    c9CallbackStore c9CallbackStore 100 witnessProviderConfig witnessOAuthConfig
    "https://base.example" false none
    ⟨some "txn9", some "cs9", some "https://evil2.example/cb", none⟩
    ⟨"ch", none, none, 0, none, none⟩
    ⟨some "AT", some "RT", some 100, some "a b"⟩
    ⟨"https:", "app.example", "app.example", "/cb"⟩
    (by decide) (by decide) (by decide) (by decide) (by decide) (by decide) (by decide)
    (by decide)⟩


/-! ### Association-map counting lemmas (for the session-cap invariant) -/

theorem map_eq_self_of {β : Type} (l : List β) (f : β → β) (h : ∀ x ∈ l, f x = x) :
    l.map f = l := by
  induction l with
  | nil => rfl
  | cons x rest ih =>
    simp only [List.map_cons, h x (List.mem_cons_self x rest)]
    rw [ih (fun y hy => h y (List.mem_cons_of_mem x hy))]

theorem mapDelete_eq_self {κ α : Type} [BEq κ] [LawfulBEq κ]
    (m : List (κ × α)) (k : κ) (h : ∀ e ∈ m, ¬(e.1 = k)) : mapDelete m k = m := by
  unfold mapDelete
  apply List.filter_eq_self.mpr
  intro e he
  have := beq_eq_false_iff_ne.mpr (h e he)
  simp [this]

theorem mapGet_mem {κ α : Type} [BEq κ] [LawfulBEq κ]
    (m : List (κ × α)) (k : κ) (v : α) (h : mapGet m k = some v) : (k, v) ∈ m := by
  unfold mapGet at h
  cases hf : m.find? (fun e => e.1 == k) with
  | none => rw [hf] at h; cases h
  | some e =>
    rw [hf] at h
    have hv : e.2 = v := by simpa using h
    have hp := List.find?_some hf
    have hk : e.1 = k := eq_of_beq (by simpa using hp)
    have hm := List.mem_of_find?_eq_some hf
    have he : e = (k, v) := Prod.ext hk hv
    rwa [he] at hm

theorem countP_snd_mapDelete_le {κ α : Type} [BEq κ]
    (m : List (κ × α)) (k : κ) (P : α → Bool) :
    ((mapDelete m k).map Prod.snd).countP P ≤ (m.map Prod.snd).countP P :=
  List.Sublist.countP_le _ ((List.filter_sublist m).map Prod.snd)

theorem countP_snd_mapDelete_mem {κ α : Type} [BEq κ] [LawfulBEq κ]
    (m : List (κ × α)) (k : κ) (v : α)
    (hnd : (m.map Prod.fst).Nodup) (hmem : (k, v) ∈ m) (P : α → Bool) :
    ((mapDelete m k).map Prod.snd).countP P + (if P v then 1 else 0) =
      (m.map Prod.snd).countP P := by
  induction m with
  | nil => cases hmem
  | cons e rest ih =>
    simp only [List.map_cons, List.nodup_cons] at hnd
    by_cases hek : e.1 = k
    · have hev : e = (k, v) := by
        rcases List.mem_cons.mp hmem with h | h
        · exact h.symm
        · exfalso
          apply hnd.1
          rw [hek]
          exact List.mem_map.mpr ⟨(k, v), h, rfl⟩
      have hrest : mapDelete rest k = rest := by
        apply mapDelete_eq_self
        intro e2 he2 hcon
        apply hnd.1
        rw [hek]
        rw [← hcon]
        exact List.mem_map.mpr ⟨e2, he2, rfl⟩
      simp only [mapDelete, List.filter_cons, hek, beq_self_eq_true, Bool.not_true,
        Bool.false_eq_true, if_false]
      rw [show rest.filter (fun e => !(e.1 == k)) = rest from hrest]
      rw [hev]
      simp [List.countP_cons, Nat.add_comm]
    · have hmem2 : (k, v) ∈ rest := by
        rcases List.mem_cons.mp hmem with h | h
        · exact absurd (congrArg Prod.fst h.symm) hek
        · exact h
      have hne : (e.1 == k) = false := beq_eq_false_iff_ne.mpr hek
      simp only [mapDelete, List.filter_cons, hne, Bool.not_false, if_pos, if_true]
      simp only [mapDelete] at ih
      simp only [List.map_cons, List.countP_cons]
      have := ih hnd.2 hmem2
      omega

theorem map_fst_replaceKey {κ α : Type} [BEq κ] [LawfulBEq κ]
    (m : List (κ × α)) (k : κ) (v : α) :
    (m.map (fun e => if e.1 == k then (k, v) else e)).map Prod.fst =
      m.map Prod.fst := by
  induction m with
  | nil => rfl
  | cons e rest ih =>
    by_cases h : (e.1 == k) = true
    · simp only [List.map_cons, h, if_true, ih]
      rw [eq_of_beq h]
    · simp only [List.map_cons, h, Bool.false_eq_true, if_false, ih]

theorem countP_snd_replaceKey_le {κ α : Type} [BEq κ] [LawfulBEq κ]
    (m : List (κ × α)) (k : κ) (v : α) (P : α → Bool)
    (hnd : (m.map Prod.fst).Nodup) :
    ((m.map (fun e => if e.1 == k then (k, v) else e)).map Prod.snd).countP P ≤
      (m.map Prod.snd).countP P + (if P v then 1 else 0) := by
  induction m with
  | nil => simp
  | cons e rest ih =>
    simp only [List.map_cons, List.nodup_cons] at hnd
    by_cases hek : e.1 == k
    · have hrest : rest.map (fun e => if e.1 == k then (k, v) else e) = rest := by
        apply map_eq_self_of
        intro e2 he2
        have : (e2.1 == k) = false := by
          apply beq_eq_false_iff_ne.mpr
          intro hcon
          apply hnd.1
          rw [eq_of_beq hek, ← hcon]
          exact List.mem_map.mpr ⟨e2, he2, rfl⟩
        simp [this]
      simp only [List.map_cons, hek, if_true, hrest, List.countP_cons]
      omega
    · simp only [List.map_cons, hek, Bool.false_eq_true, if_false, List.countP_cons]
      have := ih hnd.2
      omega

theorem countP_snd_replaceKey_eq {κ α : Type} [BEq κ] [LawfulBEq κ]
    (m : List (κ × α)) (k : κ) (v v2 : α) (P : α → Bool)
    (hnd : (m.map Prod.fst).Nodup) (hmem : (k, v) ∈ m) (hP : P v2 = P v) :
    ((m.map (fun e => if e.1 == k then (k, v2) else e)).map Prod.snd).countP P =
      (m.map Prod.snd).countP P := by
  induction m with
  | nil => cases hmem
  | cons e rest ih =>
    simp only [List.map_cons, List.nodup_cons] at hnd
    by_cases hek : e.1 == k
    · have hev : e = (k, v) := by
        rcases List.mem_cons.mp hmem with h | h
        · exact h.symm
        · exfalso
          apply hnd.1
          rw [eq_of_beq hek]
          exact List.mem_map.mpr ⟨(k, v), h, rfl⟩
      have hrest : rest.map (fun e => if e.1 == k then (k, v2) else e) = rest := by
        apply map_eq_self_of
        intro e2 he2
        have : (e2.1 == k) = false := by
          apply beq_eq_false_iff_ne.mpr
          intro hcon
          apply hnd.1
          rw [eq_of_beq hek, ← hcon]
          exact List.mem_map.mpr ⟨e2, he2, rfl⟩
        simp [this]
      rw [hev]
      simp [hrest, List.countP_cons, hP]
    · have hmem2 : (k, v) ∈ rest := by
        rcases List.mem_cons.mp hmem with h | h
        · exact absurd (congrArg Prod.fst h.symm) (by simpa using hek)
        · exact h
      simp only [List.map_cons, hek, Bool.false_eq_true, if_false, List.countP_cons]
      rw [ih hnd.2 hmem2]

theorem countP_snd_mapSet_le {κ α : Type} [BEq κ] [LawfulBEq κ]
    (m : List (κ × α)) (k : κ) (v : α) (P : α → Bool)
    (hnd : (m.map Prod.fst).Nodup) :
    ((mapSet m k v).map Prod.snd).countP P ≤
      (m.map Prod.snd).countP P + (if P v then 1 else 0) := by
  unfold mapSet
  by_cases hany : m.any (fun e => e.1 == k)
  · simpa [hany] using countP_snd_replaceKey_le m k v P hnd
  · simp only [hany, Bool.false_eq_true, if_false, List.map_append, List.countP_append]
    simp [List.countP_cons]

theorem countP_snd_mapSet_eq {κ α : Type} [BEq κ] [LawfulBEq κ]
    (m : List (κ × α)) (k : κ) (v v2 : α) (P : α → Bool)
    (hnd : (m.map Prod.fst).Nodup) (hmem : (k, v) ∈ m) (hP : P v2 = P v) :
    ((mapSet m k v2).map Prod.snd).countP P = (m.map Prod.snd).countP P := by
  unfold mapSet
  have hany : m.any (fun e => e.1 == k) = true :=
    List.any_eq_true.mpr ⟨(k, v), hmem, beq_self_eq_true k⟩
  simpa [hany] using countP_snd_replaceKey_eq m k v v2 P hnd hmem hP

theorem nodup_fst_mapSet {κ α : Type} [BEq κ] [LawfulBEq κ]
    (m : List (κ × α)) (k : κ) (v : α) (hnd : (m.map Prod.fst).Nodup) :
    ((mapSet m k v).map Prod.fst).Nodup := by
  unfold mapSet
  by_cases hany : m.any (fun e => e.1 == k)
  · simp only [hany, if_true]
    rw [map_fst_replaceKey]
    exact hnd
  · simp only [hany, Bool.false_eq_true, if_false, List.map_append]
    rw [List.nodup_append]
    refine ⟨hnd, List.nodup_singleton _, ?_⟩
    intro a ha hb
    simp only [List.map_cons, List.map_nil, List.mem_singleton] at hb
    rw [hb] at ha
    rcases List.mem_map.mp ha with ⟨e, he, hek⟩
    exact (List.any_eq_true.not.mp hany)
      ⟨e, he, by rw [hek]; exact beq_self_eq_true k⟩

theorem nodup_fst_mapDelete {κ α : Type} [BEq κ]
    (m : List (κ × α)) (k : κ) (hnd : (m.map Prod.fst).Nodup) :
    ((mapDelete m k).map Prod.fst).Nodup :=
  List.Nodup.sublist ((List.filter_sublist m).map Prod.fst) hnd

theorem selectMinBy_go_spec {α : Type} (P : α → Bool) (f : α → Int) :
    ∀ (xs : List α) (acc : Option α) (r : α),
      xs.foldl (selectStep P f) acc = some r →
      (P r = true ∧ r ∈ xs) ∨ acc = some r := by
  intro xs
  induction xs with
  | nil => intro acc r h; exact Or.inr h
  | cons x rest ih =>
    intro acc r h
    simp only [List.foldl_cons] at h
    rcases ih (selectStep P f acc x) r h with h1 | h2
    · exact Or.inl ⟨h1.1, List.mem_cons_of_mem _ h1.2⟩
    · unfold selectStep at h2
      by_cases hp : P x
      · simp only [hp, if_pos, if_true] at h2
        cases acc with
        | none =>
          have : x = r := by injection h2
          subst this
          exact Or.inl ⟨hp, List.mem_cons_self _ _⟩
        | some b =>
          by_cases hf2 : f x < f b
          · simp only [hf2, if_pos, if_true] at h2
            have : x = r := by injection h2
            subst this
            exact Or.inl ⟨hp, List.mem_cons_self _ _⟩
          · simp only [hf2, if_neg, if_false] at h2
            exact Or.inr h2
      · simp only [hp, Bool.false_eq_true, if_false] at h2
        exact Or.inr h2

theorem selectMinBy_spec {α : Type} (P : α → Bool) (f : α → Int) (xs : List α)
    (r : α) (h : selectMinBy P f xs = some r) : P r = true ∧ r ∈ xs := by
  rcases selectMinBy_go_spec P f xs none r h with h1 | h2
  · exact h1
  · cases h2

theorem selectMinBy_go_isSome {α : Type} (P : α → Bool) (f : α → Int) :
    ∀ (xs : List α) (acc : Option α), acc.isSome = true →
      (xs.foldl (selectStep P f) acc).isSome = true := by
  intro xs
  induction xs with
  | nil => intro acc h; exact h
  | cons x rest ih =>
    intro acc h
    simp only [List.foldl_cons]
    apply ih
    unfold selectStep
    by_cases hp : P x
    · cases acc with
      | none => simp [hp]
      | some b =>
        simp only [hp, if_pos, if_true]
        split <;> rfl
    · simpa [hp] using h

theorem selectMinBy_isSome_of_exists {α : Type} (P : α → Bool) (f : α → Int)
    (xs : List α) (h : ∃ x ∈ xs, P x = true) :
    (selectMinBy P f xs).isSome = true := by
  unfold selectMinBy
  induction xs with
  | nil =>
    rcases h with ⟨x, hx, _⟩
    cases hx
  | cons y rest ih =>
    simp only [List.foldl_cons]
    by_cases hp : P y
    · apply selectMinBy_go_isSome
      simp [selectStep, hp]
    · rcases h with ⟨x, hx, hPx⟩
      rcases List.mem_cons.mp hx with rfl | hxr
      · exact absurd hPx (by simp [hp])
      · have hstep : selectStep P f none y = none := by simp [selectStep, hp]
        rw [hstep]
        exact ih ⟨x, hxr, hPx⟩


/-! ### Session-store invariant lemmas -/

/-- Structural well-formedness of the session map: keys are unique and each
record's `sessionId` matches its key (every insertion site establishes it). -/
def SessionKeysOk (s : SessionState) : Prop :=
  (s.sessions.map Prod.fst).Nodup ∧ ∀ e ∈ s.sessions, e.2.sessionId = e.1

theorem countByApiKey_mono (s : SessionState) {t t2 : Int} (h : t ≤ t2) (K : String) :
    countByApiKey s t2 K ≤ countByApiKey s t K := by
  unfold countByApiKey
  apply List.countP_mono_left
  intro v _ hv
  simp only [Bool.and_eq_true, sessionLiveAt, decide_eq_true_eq] at hv ⊢
  exact ⟨hv.1, lt_of_le_of_lt h hv.2⟩

theorem countByApiKey_delete_le (s : SessionState) (k : String) (t : Int) (K : String) :
    countByApiKey ⟨mapDelete s.sessions k⟩ t K ≤ countByApiKey s t K :=
  countP_snd_mapDelete_le s.sessions k _

theorem sessionKeysOk_delete (s : SessionState) (k : String) (h : SessionKeysOk s) :
    SessionKeysOk ⟨mapDelete s.sessions k⟩ :=
  ⟨nodup_fst_mapDelete s.sessions k h.1,
   fun e he => h.2 e (List.mem_of_mem_filter he)⟩

theorem sessionKeysOk_cleanup (s : SessionState) (now : Int) (h : SessionKeysOk s) :
    SessionKeysOk (sessionCleanup s now) :=
  ⟨List.Nodup.sublist ((List.filter_sublist s.sessions).map Prod.fst) h.1,
   fun e he => h.2 e (List.mem_of_mem_filter he)⟩

theorem countByApiKey_cleanup_le (s : SessionState) (now t : Int) (K : String) :
    countByApiKey (sessionCleanup s now) t K ≤ countByApiKey s t K :=
  List.Sublist.countP_le _ ((List.filter_sublist s.sessions).map Prod.snd)

theorem sessionKeysOk_deleteOldest (s : SessionState) (now : Int) (k : String)
    (h : SessionKeysOk s) : SessionKeysOk (deleteOldestByApiKey s now k) := by
  unfold deleteOldestByApiKey
  split
  · exact sessionKeysOk_delete s _ h
  · exact h

theorem countByApiKey_deleteOldest_le (s : SessionState) (now : Int) (k : String)
    (t : Int) (K : String) :
    countByApiKey (deleteOldestByApiKey s now k) t K ≤ countByApiKey s t K := by
  unfold deleteOldestByApiKey
  split
  · exact countByApiKey_delete_le s _ t K
  · exact le_refl _

theorem sessionKeysOk_evictGlobal (s : SessionState) (h : SessionKeysOk s) :
    SessionKeysOk (evictGlobalOldestSession s) := by
  unfold evictGlobalOldestSession
  split
  · exact sessionKeysOk_delete s _ h
  · exact h

theorem countByApiKey_evictGlobal_le (s : SessionState) (t : Int) (K : String) :
    countByApiKey (evictGlobalOldestSession s) t K ≤ countByApiKey s t K := by
  unfold evictGlobalOldestSession
  split
  · exact countByApiKey_delete_le s _ t K
  · exact le_refl _

theorem countByApiKey_deleteOldest_decr (s : SessionState) (now : Int) (K : String)
    (hkeys : SessionKeysOk s) (hpos : 0 < countByApiKey s now K) :
    countByApiKey (deleteOldestByApiKey s now K) now K + 1 = countByApiKey s now K := by
  have hex : ∃ x ∈ s.sessions.map Prod.snd,
      (fun v => v.apiKey == some K && sessionLiveAt now v) x = true :=
    List.countP_pos.mp hpos
  have hsome := selectMinBy_isSome_of_exists
    (fun v => v.apiKey == some K && sessionLiveAt now v)
    (fun v => v.last_accessed) (s.sessions.map Prod.snd) hex
  unfold deleteOldestByApiKey
  cases hsel : selectMinBy (fun v => v.apiKey == some K && sessionLiveAt now v)
      (fun v => v.last_accessed) (s.sessions.map Prod.snd) with
  | none => rw [hsel] at hsome; cases hsome
  | some o =>
    obtain ⟨hPo, hmemo⟩ := selectMinBy_spec _ _ _ _ hsel
    obtain ⟨e, he, he2⟩ := List.mem_map.mp hmemo
    have hco : e.2.sessionId = e.1 := hkeys.2 e he
    have hpair : (o.sessionId, o) ∈ s.sessions := by
      have heo : e = (o.sessionId, o) := by
        rcases e with ⟨k1, v1⟩
        simp only at he2 hco
        subst he2
        rw [hco]
      exact heo ▸ he
    have hdel := countP_snd_mapDelete_mem s.sessions o.sessionId o hkeys.1 hpair
      (fun v => v.apiKey == some K && sessionLiveAt now v)
    simp only [hPo, if_true] at hdel
    exact hdel

theorem sessionKeysOk_mapSet_record (s : SessionState) (sid : String)
    (r : InternalSession) (hr : r.sessionId = sid) (h : SessionKeysOk s) :
    SessionKeysOk ⟨mapSet s.sessions sid r⟩ := by
  refine ⟨nodup_fst_mapSet s.sessions sid r h.1, ?_⟩
  intro e he
  unfold mapSet at he
  by_cases hany : s.sessions.any (fun e => e.1 == sid)
  · rw [if_pos hany] at he
    rcases List.mem_map.mp he with ⟨e0, he0, heq⟩
    by_cases hk : (e0.1 == sid) = true
    · rw [← heq]
      simp [hk, hr]
    · rw [← heq]
      simp only [hk, Bool.false_eq_true, if_false]
      exact h.2 e0 he0
  · rw [if_neg hany] at he
    rcases List.mem_append.mp he with h1 | h2
    · exact h.2 e h1
    · simp only [List.mem_singleton] at h2
      subst h2
      exact hr

theorem sessionCreate_keysOk (s : SessionState) (now : Int) (sid K0 : String)
    (ttl : Int) (h : SessionKeysOk s) :
    SessionKeysOk (sessionCreate s now sid K0 ttl).1 := by
  unfold sessionCreate
  dsimp only
  apply sessionKeysOk_mapSet_record _ sid _ rfl
  split_ifs <;>
    first
      | exact h
      | exact sessionKeysOk_deleteOldest _ _ _ h
      | exact sessionKeysOk_evictGlobal _ h
      | exact sessionKeysOk_evictGlobal _ (sessionKeysOk_deleteOldest _ _ _ h)

theorem sessionCreate_cap (s : SessionState) (now : Int) (sid K0 : String)
    (hkeys : SessionKeysOk s)
    (hinv : ∀ K, countByApiKey s now K ≤ MAX_SESSIONS_PER_API_KEY) (K : String) :
    countByApiKey (sessionCreate s now sid K0 DEFAULT_SESSION_TTL_MS).1 now K ≤
      MAX_SESSIONS_PER_API_KEY := by
  unfold sessionCreate
  dsimp only
  generalize hS1 : (if countByApiKey s now K0 ≥ MAX_SESSIONS_PER_API_KEY then
    deleteOldestByApiKey s now K0 else s) = s1
  have hk1 : SessionKeysOk s1 := by
    rw [← hS1]
    split_ifs with hc
    · exact sessionKeysOk_deleteOldest s now K0 hkeys
    · exact hkeys
  have h1K0 : countByApiKey s1 now K0 + 1 ≤ MAX_SESSIONS_PER_API_KEY := by
    rw [← hS1]
    split_ifs with hc
    · have h5 : countByApiKey s now K0 = MAX_SESSIONS_PER_API_KEY :=
        le_antisymm (hinv K0) hc
      have hpos : 0 < countByApiKey s now K0 := by rw [h5]; decide
      have hdec := countByApiKey_deleteOldest_decr s now K0 hkeys hpos
      omega
    · have h4 : countByApiKey s now K0 < MAX_SESSIONS_PER_API_KEY :=
        Nat.lt_of_not_le hc
      omega
  have h1 : ∀ K2, countByApiKey s1 now K2 ≤ MAX_SESSIONS_PER_API_KEY := by
    intro K2
    rw [← hS1]
    split_ifs with hc
    · exact le_trans (countByApiKey_deleteOldest_le s now K0 now K2) (hinv K2)
    · exact hinv K2
  generalize hS2 : (if s1.sessions.length ≥ MAX_SESSIONS then
    evictGlobalOldestSession s1 else s1) = s2
  have hk2 : SessionKeysOk s2 := by
    rw [← hS2]
    split_ifs with hc
    · exact sessionKeysOk_evictGlobal s1 hk1
    · exact hk1
  have h2K0 : countByApiKey s2 now K0 + 1 ≤ MAX_SESSIONS_PER_API_KEY := by
    rw [← hS2]
    split_ifs with hc
    · have := countByApiKey_evictGlobal_le s1 now K0
      omega
    · exact h1K0
  have h2 : ∀ K2, countByApiKey s2 now K2 ≤ MAX_SESSIONS_PER_API_KEY := by
    intro K2
    rw [← hS2]
    split_ifs with hc
    · exact le_trans (countByApiKey_evictGlobal_le s1 now K2) (h1 K2)
    · exact h1 K2
  have hb := countP_snd_mapSet_le s2.sessions sid
    { sessionId := sid, apiKey := some K0, rs_access_token := none,
      rs_refresh_token := none, provider := none, created_at := now,
      last_accessed := now, initialized := some false, protocolVersion := none,
      expiresAt := now + DEFAULT_SESSION_TTL_MS }
    (fun v => v.apiKey == some K && sessionLiveAt now v) hk2.1
  by_cases hKK : K = K0
  · subst hKK
    have hlive : sessionLiveAt now
        { sessionId := sid, apiKey := some K, rs_access_token := none,
          rs_refresh_token := none, provider := none, created_at := now,
          last_accessed := now, initialized := some false, protocolVersion := none,
          expiresAt := now + DEFAULT_SESSION_TTL_MS } = true := by
      simp only [sessionLiveAt, DEFAULT_SESSION_TTL_MS, decide_eq_true_eq]
      omega
    simp only [hlive, beq_self_eq_true, Bool.and_self, if_true] at hb
    unfold countByApiKey at h2K0 ⊢
    dsimp only at hb ⊢
    omega
  · have hP : ((some K0 : Option String) == some K) = false :=
      beq_eq_false_iff_ne.mpr (by simpa using fun hcon => hKK hcon.symm)
    simp only [hP, Bool.false_and, Bool.false_eq_true, if_false, Nat.add_zero] at hb
    have h2K := h2 K
    unfold countByApiKey at h2K ⊢
    dsimp only at hb ⊢
    omega

theorem sessionGet_keysOk_cap (s : SessionState) (now : Int) (sid : String)
    (hkeys : SessionKeysOk s)
    (hinv : ∀ K, countByApiKey s now K ≤ MAX_SESSIONS_PER_API_KEY) :
    SessionKeysOk (sessionGet s now sid).1 ∧
      ∀ K, countByApiKey (sessionGet s now sid).1 now K ≤ MAX_SESSIONS_PER_API_KEY := by
  unfold sessionGet
  cases hg : mapGet s.sessions sid with
  | none => exact ⟨hkeys, hinv⟩
  | some v =>
    dsimp only
    split_ifs with hexp
    · exact ⟨sessionKeysOk_delete s sid hkeys,
        fun K => le_trans (countByApiKey_delete_le s sid now K) (hinv K)⟩
    · have hmem := mapGet_mem s.sessions sid v hg
      have hsid : v.sessionId = sid := hkeys.2 (sid, v) hmem
      refine ⟨sessionKeysOk_mapSet_record s sid _ hsid hkeys, fun K => ?_⟩
      have heq := countP_snd_mapSet_eq s.sessions sid v
        { v with last_accessed := now }
        (fun v2 => v2.apiKey == some K && sessionLiveAt now v2) hkeys.1 hmem rfl
      unfold countByApiKey
      rw [heq]
      exact hinv K

/-! ### The cap-respecting operation subset and the invariant (C6) -/

/-- The session-store operations that go through the cap logic (`put`,
`update` and `ensure` bypass it — see the C6 counterexample). -/
inductive SessionOp : Type
  | create (now : Int) (sessionId apiKey : String)
  | get (now : Int) (sessionId : String)
  | del (sessionId : String)
  | deleteOldest (now : Int) (apiKey : String)
  | cleanup (now : Int)
deriving DecidableEq, Repr

def applySessionOp (s : SessionState) : SessionOp → SessionState
  | .create now sid k => (sessionCreate s now sid k DEFAULT_SESSION_TTL_MS).1
  | .get now sid => (sessionGet s now sid).1
  | .del sid => sessionDelete s sid
  | .deleteOldest now k => deleteOldestByApiKey s now k
  | .cleanup now => sessionCleanup s now

def opTime : SessionOp → Option Int
  | .create now _ _ => some now
  | .get now _ => some now
  | .del _ => none
  | .deleteOldest now _ => some now
  | .cleanup now => some now

/-- The operation timestamps are non-decreasing starting from `t`. -/
def timesMonotone : Int → List SessionOp → Bool
  | _, [] => true
  | t, op :: rest =>
    match opTime op with
    | some u => decide (t ≤ u) && timesMonotone u rest
    | none => timesMonotone t rest

def runSessionOps : SessionState → List SessionOp → SessionState
  | s, [] => s
  | s, op :: rest => runSessionOps (applySessionOp s op) rest

/-- The time of the last timed operation (or `t` if none). -/
def lastTime : Int → List SessionOp → Int
  | t, [] => t
  | t, op :: rest => lastTime ((opTime op).getD t) rest

theorem c6_runOps_aux (ops : List SessionOp) :
    ∀ (s : SessionState) (t : Int), SessionKeysOk s →
      (∀ K, countByApiKey s t K ≤ MAX_SESSIONS_PER_API_KEY) →
      timesMonotone t ops = true →
      SessionKeysOk (runSessionOps s ops) ∧
        ∀ K, countByApiKey (runSessionOps s ops) (lastTime t ops) K ≤
          MAX_SESSIONS_PER_API_KEY := by
  induction ops with
  | nil => exact fun s t hk hc _ => ⟨hk, hc⟩
  | cons op rest ih =>
    intro s t hk hc hm
    cases op with
    | create now sid K0 =>
      simp only [timesMonotone, opTime, Bool.and_eq_true, decide_eq_true_eq] at hm
      have hc2 : ∀ K, countByApiKey s now K ≤ MAX_SESSIONS_PER_API_KEY :=
        fun K => le_trans (countByApiKey_mono s hm.1 K) (hc K)
      exact ih _ now (sessionCreate_keysOk s now sid K0 _ hk)
        (sessionCreate_cap s now sid K0 hk hc2) hm.2
    | get now sid =>
      simp only [timesMonotone, opTime, Bool.and_eq_true, decide_eq_true_eq] at hm
      have hc2 : ∀ K, countByApiKey s now K ≤ MAX_SESSIONS_PER_API_KEY :=
        fun K => le_trans (countByApiKey_mono s hm.1 K) (hc K)
      have hstep := sessionGet_keysOk_cap s now sid hk hc2
      exact ih _ now hstep.1 hstep.2 hm.2
    | del sid =>
      simp only [timesMonotone, opTime] at hm
      exact ih _ t (sessionKeysOk_delete s sid hk)
        (fun K => le_trans (countByApiKey_delete_le s sid t K) (hc K)) hm
    | deleteOldest now k =>
      simp only [timesMonotone, opTime, Bool.and_eq_true, decide_eq_true_eq] at hm
      have hc2 : ∀ K, countByApiKey s now K ≤ MAX_SESSIONS_PER_API_KEY :=
        fun K => le_trans (countByApiKey_mono s hm.1 K) (hc K)
      exact ih _ now (sessionKeysOk_deleteOldest s now k hk)
        (fun K => le_trans (countByApiKey_deleteOldest_le s now k now K) (hc2 K)) hm.2
    | cleanup now =>
      simp only [timesMonotone, opTime, Bool.and_eq_true, decide_eq_true_eq] at hm
      have hc2 : ∀ K, countByApiKey s now K ≤ MAX_SESSIONS_PER_API_KEY :=
        fun K => le_trans (countByApiKey_mono s hm.1 K) (hc K)
      exact ih _ now (sessionKeysOk_cleanup s now hk)
        (fun K => le_trans (countByApiKey_cleanup_le s now now K) (hc2 K)) hm.2

/-- C6 (amended): starting from an empty store, after any sequence of
`create`/`get`/`delete`/`deleteOldestByApiKey`/`cleanup` operations with
non-decreasing timestamps, at most `MAX_SESSIONS_PER_API_KEY` (= 5) live
sessions are bound to any credential fingerprint; `create` at the cap first
evicts the matching live session with the smallest `last_accessed` (the
`deleteOldestByApiKey` scan).  The raw `put` (and likewise `update` and
`ensure`) bypass this cap — see the counterexample. -/
theorem c6_amended_cap_invariant (ops : List SessionOp) (t0 : Int)
    (hmono : timesMonotone t0 ops = true) (K : String) :
    countByApiKey (runSessionOps emptySessionStore ops) (lastTime t0 ops) K ≤
      MAX_SESSIONS_PER_API_KEY :=
  (c6_runOps_aux ops emptySessionStore t0
    ⟨List.nodup_nil, fun e he => absurd he (List.not_mem_nil e)⟩
    (fun _ => by simp [countByApiKey, emptySessionStore]) hmono).2 K

def c6WitnessOps : List SessionOp :=
  [.create 0 "s1" "K", .create 1 "s2" "K", .create 2 "s3" "K", .create 3 "s4" "K",
   .create 4 "s5" "K", .create 5 "s6" "K", .get 6 "s2", .del "s3", .cleanup 7]

theorem c6_amended_cap_invariant_witness :
    timesMonotone 0 c6WitnessOps = true ∧
    countByApiKey (runSessionOps emptySessionStore c6WitnessOps)
      (lastTime 0 c6WitnessOps) "K" ≤ MAX_SESSIONS_PER_API_KEY :=
  ⟨by decide, c6_amended_cap_invariant c6WitnessOps 0 (by decide) "K"⟩

end AllegroMcp
